import Mathlib

/-!
Shallow embedding of the rox interpreter (lexer, parser, resolver, evaluator,
environment model and module loader) and proofs settling the spec claims.

Sources embedded (paths relative to the repository root):
  * src/tokenizer/scanner.rs, token.rs, token_type.rs, literal.rs, error.rs
  * src/parser/parse.rs, expression/{primary,binary,unary}.rs,
    statement/{control,compound,declaration,exception}.rs, error.rs
  * src/resolver/{resolver,resolve}.rs
  * src/evaluate/{interpreter,environment,value,error}.rs
  * src/std_lib/{globals,mod,list,string,io/file_system}.rs
  * src/main.rs (the driver pipeline)

Modelling conventions:
  * `Rc<RefCell<T>>` cells become indices into explicit heaps carried in the
    interpreter state; `Rc` clone is index copy, so reference identity is
    index equality.  A `RefCell` re-borrow panic is modelled as the
    `RRes.panicked` outcome, as are Rust `unwrap`/`panic!` calls.
  * Rust `HashMap`/`HashSet` become association lists with replace-on-insert
    semantics (the sources never depend on hash iteration order in a way any
    claim observes).
  * `f64` is modelled as `Q`.  Every numeric literal the claims exercise is
    a small integer, on which rational and double arithmetic agree exactly.
    The saturating casts `as usize` / `as i64` are modelled explicitly.
  * All recursion is fuelled; `RRes.fuel` (or `Option.none` in the scanner)
    reports fuel exhaustion, which is distinct from every program outcome.
-/

set_option maxRecDepth 100000
set_option maxHeartbeats 4000000

namespace Rox

/-! ## Generic result / state-monad plumbing -/

/-- Outcome of a stateful Rust computation: `ok` mirrors `Ok`, `err` mirrors
`Err`, `panicked` models a Rust panic (unwrap on `None`, `RefCell` re-borrow,
explicit `panic!`), and `fuel` reports exhaustion of the embedding fuel. -/
inductive RRes (ε : Type) (α : Type) where
  | ok (a : α)
  | err (e : ε)
  | panicked (msg : String)
  | fuel
  deriving Repr

/-- State-threading computation: Rust `&mut self` methods returning
`Result<α, ε>` become values of `StM σ ε α`. -/
def StM (σ ε α : Type) : Type := σ → RRes ε α × σ

instance : Monad (StM σ ε) where
  pure a := fun st => (RRes.ok a, st)
  bind m f := fun st =>
    match m st with
    | (RRes.ok a, st1) => f a st1
    | (RRes.err e, st1) => (RRes.err e, st1)
    | (RRes.panicked msg, st1) => (RRes.panicked msg, st1)
    | (RRes.fuel, st1) => (RRes.fuel, st1)

/-- Read the whole state. -/
def getS : StM σ ε σ := fun st => (RRes.ok st, st)

/-- Replace the whole state. -/
def setS (s : σ) : StM σ ε Unit := fun _ => (RRes.ok (), s)

/-- Update the state in place. -/
def modifyS (f : σ → σ) : StM σ ε Unit := fun st => (RRes.ok (), f st)

/-- Raise an error (Rust `return Err(e)`). -/
def throwS (e : ε) : StM σ ε α := fun st => (RRes.err e, st)

/-- Model of a Rust panic. -/
def panicS (msg : String) : StM σ ε α := fun st => (RRes.panicked msg, st)

/-- Fuel exhaustion of the embedding. -/
def fuelS : StM σ ε α := fun st => (RRes.fuel, st)

/-- Rust `Option::unwrap`: a `None` panics. -/
def unwrapS : Option α → StM σ ε α
  | Option.some a => pure a
  | Option.none => panicS "called Option::unwrap() on a None value"

/-! ## Association-list model of `HashMap` / `HashSet` -/

/-- `HashMap::get`. -/
def mapGet [DecidableEq κ] : List (κ × α) → κ → Option α
  | [], _ => Option.none
  | (k1, v) :: rest, k => if k1 = k then Option.some v else mapGet rest k

/-- `HashMap::insert` (replaces an existing binding for the key). -/
def mapInsert [DecidableEq κ] : List (κ × α) → κ → α → List (κ × α)
  | [], k, v => [(k, v)]
  | (k1, v1) :: rest, k, v =>
    if k1 = k then (k, v) :: rest else (k1, v1) :: mapInsert rest k v

/-- `HashMap::contains_key`. -/
def mapContains [DecidableEq κ] (m : List (κ × α)) (k : κ) : Bool :=
  (mapGet m k).isSome

/-- `HashMap::remove` (dropping the returned value). -/
def mapRemove [DecidableEq κ] : List (κ × α) → κ → List (κ × α)
  | [], _ => []
  | (k1, v1) :: rest, k =>
    if k1 = k then rest else (k1, v1) :: mapRemove rest k

/-- `HashSet::insert`. -/
def setInsert [DecidableEq κ] (s : List κ) (k : κ) : List κ :=
  if k ∈ s then s else s ++ [k]

/-! ## Rational model of `f64`

`f64` is modelled as an exact rational number.  The type `Q` is a plain
numerator/denominator pair kept in canonical form (positive denominator,
coprime with the numerator); all of its operations reduce definitionally,
so concrete interpreter runs can be checked by `rfl`/`decide`.  Rounding,
infinities and NaN are outside the model. -/

/-- Euclid's algorithm with explicit fuel; any `fuel > m` computes
`Nat.gcd m n`. -/
def gcdF : Nat → Nat → Nat → Nat
  | 0, _, n => n
  | _ + 1, 0, n => n
  | f + 1, m + 1, n => gcdF f (n % (m + 1)) (m + 1)

/-- Greatest common divisor, by reducible fuelled recursion. -/
def qgcd (m n : Nat) : Nat := gcdF (m + 1) m n

/-- Exact rational number in canonical form. -/
structure Q where
  num : Int
  den : Nat
  deriving DecidableEq, BEq, Repr

/-- Make a canonical `Q`; a zero denominator yields `0` (the evaluator
guards every division, so this case is never produced by a program). -/
def qMk (n : Int) (d : Nat) : Q :=
  if d = 0 then ⟨0, 1⟩
  else
    let g := qgcd n.natAbs d
    ⟨n / (g : Int), d / g⟩

def qAdd (a b : Q) : Q := qMk (a.num * b.den + b.num * a.den) (a.den * b.den)

def qNeg (a : Q) : Q := ⟨-a.num, a.den⟩

def qSub (a b : Q) : Q := qAdd a (qNeg b)

def qMul (a b : Q) : Q := qMk (a.num * b.num) (a.den * b.den)

def qDiv (a b : Q) : Q :=
  if b.num = 0 then ⟨0, 1⟩
  else qMk (Int.sign b.num * a.num * b.den) (a.den * b.num.natAbs)

def qPow (a : Q) : Nat → Q
  | 0 => ⟨1, 1⟩
  | n + 1 => qMul (qPow a n) a

instance : Add Q := ⟨qAdd⟩

instance : Neg Q := ⟨qNeg⟩

instance : Sub Q := ⟨qSub⟩

instance : Mul Q := ⟨qMul⟩

instance : Div Q := ⟨qDiv⟩

instance : HPow Q Nat Q := ⟨qPow⟩

instance : LT Q := ⟨fun a b => a.num * (b.den : Int) < b.num * (a.den : Int)⟩

instance : LE Q := ⟨fun a b => a.num * (b.den : Int) ≤ b.num * (a.den : Int)⟩

instance (a b : Q) : Decidable (a < b) :=
  inferInstanceAs (Decidable (a.num * (b.den : Int) < b.num * (a.den : Int)))

instance (a b : Q) : Decidable (a ≤ b) :=
  inferInstanceAs (Decidable (a.num * (b.den : Int) ≤ b.num * (a.den : Int)))

instance : NatCast Q := ⟨fun n => ⟨(n : Int), 1⟩⟩

instance : IntCast Q := ⟨fun n => ⟨n, 1⟩⟩

instance (n : Nat) : OfNat Q n := ⟨⟨(n : Int), 1⟩⟩

/-- Absolute value, as Rust `f64::abs`. -/
def qAbs (a : Q) : Q := ⟨(a.num.natAbs : Int), a.den⟩

/-- Rust `f64::fract() != 0.0` test: the value is not an integer.  On the
rationals that represent doubles this is exactly `den ≠ 1` (note that
`-0.0 == 0.0` in IEEE, so an integral negative double also passes the
`fract() != 0.0 → error` check in the sources). -/
def ratIsInt (q : Q) : Bool := q.den = 1

/-- Truncation toward zero, as an integer. -/
def ratTrunc (q : Q) : Int := Int.tdiv q.num (q.den : Int)

/-- Rust saturating cast `f64 as usize`: negative values clamp to `0`,
values above `usize::MAX` clamp to `usize::MAX`, otherwise truncate. -/
def f64AsUsize (q : Q) : Nat :=
  min (ratTrunc q).toNat (2 ^ 64 - 1)

/-- Rust saturating cast `f64 as i64`. -/
def f64AsI64 (q : Q) : Int :=
  max (-(2 ^ 63)) (min (ratTrunc q) (2 ^ 63 - 1))

/-- Two's-complement view of an `i64` as 64 bits. -/
def i64Bits (a : Int) : Nat := (a % (2 ^ 64 : Int)).toNat

/-- Read 64 bits back as an `i64`. -/
def bitsI64 (n : Nat) : Int :=
  if n < 2 ^ 63 then (n : Int) else (n : Int) - 2 ^ 64

/-- `i64` bitwise AND. -/
def i64Land (a b : Int) : Int := bitsI64 (Nat.land (i64Bits a) (i64Bits b))

/-- `i64` bitwise OR. -/
def i64Lor (a b : Int) : Int := bitsI64 (Nat.lor (i64Bits a) (i64Bits b))

/-- `i64` bitwise XOR. -/
def i64Xor (a b : Int) : Int := bitsI64 (Nat.xor (i64Bits a) (i64Bits b))

/-- `i64` bitwise NOT (`!x` in Rust on integers). -/
def i64Not (a : Int) : Int := -a - 1

/-- Rust `%` on `f64` (truncated remainder). -/
def f64Rem (a b : Q) : Q := a - b * (ratTrunc (a / b) : Q)

/-- Rust `f64::rem_euclid`. -/
def f64RemEuclid (a b : Q) : Q :=
  let r := f64Rem a b
  if r < 0 then r + qAbs b else r

/-- Digits of a natural number, most significant first (fuelled helper so the
definition is structural and computes by kernel reduction). -/
def natDigitsAux : Nat → Nat → List Char
  | 0, _ => []
  | _ + 1, n =>
    if n < 10 then [Char.ofNat (48 + n)]
    else natDigitsAux n (n / 10) ++ [Char.ofNat (48 + n % 10)]

/-- Digits of a natural number, most significant first. -/
def natDigits (n : Nat) : List Char := natDigitsAux (n + 1) n

/-- Decimal rendering of an integer, as Rust `i64`/`f64` display it. -/
def intDisplay (i : Int) : String :=
  if i < 0 then "-" ++ String.mk (natDigits i.natAbs) else String.mk (natDigits i.natAbs)

/-- Display form of a number value.  Rust prints the shortest decimal that
round-trips through `f64`; on the integral values every claim exercises this
is the plain integer.  Non-integral rationals are rendered as
`num/den`, which no claim observes. -/
def numberDisplay (q : Q) : String :=
  if q.den = 1 then intDisplay q.num
  else intDisplay q.num ++ "/" ++ String.mk (natDigits q.den)

/-- Parse an unsigned decimal digit string. -/
def parseDigits : List Char → Option Nat
  | [] => Option.none
  | cs => cs.foldlM (fun acc c =>
      if c.isDigit then Option.some (acc * 10 + (c.toNat - 48)) else Option.none) 0

/-- Rust `str::parse::<f64>()` restricted to the number shapes the rox
pipeline produces: `digits`, `digits.`, `digits.digits`, with an optional
leading minus.  Anything else is `None` (Rust would also accept exponents
and infinities, which no rox lexeme contains). -/
def parse_f64 (s : String) : Option Q :=
  let cs := s.toList
  let core : List Char → Option Q := fun cs =>
    match cs.splitOn '.' with
    | [intPart] => (parseDigits intPart).map (fun n => (n : Q))
    | [intPart, []] => (parseDigits intPart).map (fun n => (n : Q))
    | [intPart, fracPart] =>
      match parseDigits intPart, parseDigits fracPart with
      | Option.some n, Option.some f =>
        Option.some ((n : Q) + (f : Q) / ((10 : Q) ^ fracPart.length))
      | _, _ => Option.none
    | _ => Option.none
  match cs with
  | '-' :: rest => (core rest).map (fun q => -q)
  | _ => core cs

/-! ## Tokens (src/tokenizer/token_type.rs, literal.rs, token.rs) -/

/-- Token kinds, from `token_type.rs`.  The scanner in the tree predates a
renaming and still says `And`/`Or`/`BitAnd`/`BitOr`/`BitXor` for what this
enum calls `LogicalAnd`/`LogicalOr`/`Ampersand`/`Pipe`/`Xor`; the embedding
uses the names below throughout. -/
inductive TokenType where
  | LeftParen | RightParen | LeftBrace | RightBrace
  | LeftBracket | RightBracket | Colon | Comma | Dot
  | Minus | Plus | PlusEqual | MinusEqual | SlashEqual | StarEqual
  | Semicolon | Slash | Star
  | LogicalAnd | LogicalOr | Ampersand | Pipe | Xor | And | Or | Percent
  | Bang | BangEqual | Equal | EqualEqual
  | Greater | GreaterEqual | Less | LessEqual
  | Identifier | String | Number
  | Class | Else | False | Fun | For | If | Nil | Print | Return
  | Super | This | True | Var | While | Continue | Break
  | Try | Catch | Throw | Export
  | Eof
  deriving Repr, DecidableEq

/-- Token literal payload, from `literal.rs` (`f64` modelled as `Q`). -/
inductive Literal where
  | Nil
  | None
  | String (s : String)
  | Number (n : Q)
  | Tuple (xs : List Literal)
  | List (xs : List Literal)
  | Dict (xs : List (Literal × Literal))
  | Boolean (b : Bool)
  deriving Repr, BEq

/-- A token, from `token.rs`. -/
structure Token where
  token_type : TokenType
  lexeme : String
  line : Nat
  literal : Literal
  deriving Repr, BEq

/-- `Token::new`. -/
def Token.new (token_type : TokenType) (lexeme : String) (line : Nat)
    (literal : Literal) : Token :=
  ⟨token_type, lexeme, line, literal⟩

/-- The token stream produced by the scanner (`Tokens` in `token.rs`). -/
structure Tokens where
  tokens : List Token
  deriving Repr

/-- Scan-error kinds, from `tokenizer/error.rs`. -/
inductive ScanError where
  | UnexpectedCharacter (c : Char) (line : Nat)
  | UnterminatedString (line : Nat)
  deriving Repr, DecidableEq

/-- `tokenizer::Error`: the list of all collected scan errors. -/
structure ScannerError where
  errors : List ScanError
  deriving Repr

/-! ## Scanner (src/tokenizer/scanner.rs)

The scanner walks a `Vec<char>` by index.  Loops are fuelled; `Option.none`
throughout this section means the fuel ran out (the Rust code has no
corresponding outcome: it would still be running). -/

/-- Scanner state (the fields of `struct Scanner`). -/
structure ScanSt where
  source : List Char
  tokens : List Token
  start : Nat
  current : Nat
  line : Nat
  errors : List ScanError
  deriving Repr

namespace Scanner

/-- The `'\0'` sentinel `peek`/`peek_next` return at end of input. -/
def nulChar : Char := Char.ofNat 0

/-- Rust `char::is_numeric`, restricted to the ASCII digits (the full check
also accepts other Unicode numeric scalars; no claim involves those). -/
def charIsNumeric (c : Char) : Bool := c.isDigit

/-- Rust `char::is_alphabetic`, restricted to ASCII letters. -/
def charIsAlphabetic (c : Char) : Bool := c.isAlpha

/-- Rust `char::is_alphanumeric`, restricted to ASCII. -/
def charIsAlphanumeric (c : Char) : Bool := c.isAlphanum

/-- `Scanner::new`. -/
def new (source : String) : ScanSt :=
  ⟨source.toList, [], 0, 0, 1, []⟩

/-- `Scanner::is_at_end`. -/
def is_at_end (st : ScanSt) : Bool := st.source.length ≤ st.current

/-- `Scanner::handle_error`: print the message (not modelled) and push the
error onto the list; scanning continues at the caller. -/
def handle_error (st : ScanSt) (e : ScanError) : ScanSt :=
  { st with errors := st.errors ++ [e] }

/-- `Scanner::peek`. -/
def peek (st : ScanSt) : Char :=
  if is_at_end st then nulChar else st.source.getD st.current nulChar

/-- `Scanner::peek_next`. -/
def peek_next (st : ScanSt) : Char :=
  if st.source.length ≤ st.current + 1 then nulChar
  else st.source.getD (st.current + 1) nulChar

/-- `Scanner::advance`: read `source[current]` (in bounds at every call
site) and bump the index. -/
def advance (st : ScanSt) : Char × ScanSt :=
  (st.source.getD st.current nulChar, { st with current := st.current + 1 })

/-- `Scanner::match_char`. -/
def match_char (st : ScanSt) (expected : Char) : Bool × ScanSt :=
  if is_at_end st ∨ st.source.getD st.current nulChar ≠ expected then (false, st)
  else (true, { st with current := st.current + 1 })

/-- `Scanner::lexeme`: the slice `source[start..current]`, with the quotes
stripped when `is_string_lexeme` is set. -/
def lexeme (st : ScanSt) (is_string_lexeme : Bool) : String :=
  if is_string_lexeme then
    String.mk ((st.source.take (st.current - 1)).drop (st.start + 1))
  else
    String.mk ((st.source.take st.current).drop st.start)

/-- `Scanner::add_token_with_literal`. -/
def add_token_with_literal (st : ScanSt) (tt : TokenType) (lit : Literal) : ScanSt :=
  { st with tokens := st.tokens ++ [Token.new tt (lexeme st false) st.line lit] }

/-- `Scanner::add_token`. -/
def add_token (st : ScanSt) (tt : TokenType) : ScanSt :=
  add_token_with_literal st tt Literal.None

/-- `Scanner::handle_whitespace`. -/
def handle_whitespace (st : ScanSt) (c : Char) : ScanSt :=
  if c = '\n' then { st with line := st.line + 1 } else st

/-- The `//`-comment loop: `while peek != '\n' && !is_at_end { advance }`. -/
def lineCommentLoop : Nat → ScanSt → Option ScanSt
  | 0, _ => Option.none
  | n + 1, st =>
    if peek st ≠ '\n' ∧ ¬ is_at_end st then lineCommentLoop n (advance st).2
    else Option.some st

/-- `Scanner::scan_block_comment`. -/
def scan_block_comment : Nat → ScanSt → Option ScanSt
  | 0, _ => Option.none
  | n + 1, st =>
    if is_at_end st then Option.some st
    else if peek st = '*' ∧ peek_next st = '/' then
      Option.some (advance (advance st).2).2
    else
      let st := if peek st = '\n' then { st with line := st.line + 1 } else st
      scan_block_comment n (advance st).2

/-- The string-body loop inside `Scanner::is_string`. -/
def stringLoop : Nat → ScanSt → Option ScanSt
  | 0, _ => Option.none
  | n + 1, st =>
    if peek st ≠ '"' ∧ ¬ is_at_end st then
      let st := if peek st = '\n' then { st with line := st.line + 1 } else st
      stringLoop n (advance st).2
    else Option.some st

/-- `Scanner::is_string` (the opening quote is already consumed). -/
def is_string (fuel : Nat) (st : ScanSt) : Option ScanSt := do
  let st ← stringLoop fuel st
  if is_at_end st then
    Option.some (handle_error st (ScanError.UnterminatedString st.line))
  else
    let st := (advance st).2
    Option.some (add_token_with_literal st TokenType.String (Literal.String (lexeme st true)))

/-- The digit-consuming loop `while peek().is_numeric() { advance }`. -/
def digitsLoop : Nat → ScanSt → Option ScanSt
  | 0, _ => Option.none
  | n + 1, st =>
    if charIsNumeric (peek st) then digitsLoop n (advance st).2
    else Option.some st

/-- The outer fraction loop of `Scanner::is_digit`:
`while peek_next().is_numeric() { while peek().is_numeric() { advance } }`.
When `peek` is not a digit but `peek_next` is, no iteration makes progress
and the Rust code loops forever; here the fuel runs out instead. -/
def fracOuterLoop : Nat → ScanSt → Option ScanSt
  | 0, _ => Option.none
  | n + 1, st =>
    if charIsNumeric (peek_next st) then do
      let st1 ← digitsLoop n st
      fracOuterLoop n st1
    else Option.some st

/-- `Scanner::is_digit` (the first digit is already consumed). -/
def is_digit (fuel : Nat) (st : ScanSt) : Option ScanSt := do
  let st ← digitsLoop fuel st
  let st ←
    if peek st = '.' then do
      let st := (advance st).2
      fracOuterLoop fuel st
    else Option.some st
  let value := (parse_f64 (lexeme st false)).getD 0
  Option.some (add_token_with_literal st TokenType.Number (Literal.Number value))

/-- The identifier loop `while peek().is_alphanumeric() || peek() == '_'`. -/
def identLoop : Nat → ScanSt → Option ScanSt
  | 0, _ => Option.none
  | n + 1, st =>
    if charIsAlphanumeric (peek st) ∨ peek st = '_' then identLoop n (advance st).2
    else Option.some st

/-- `Scanner::is_identifier`.  The keyword table is the one in the tree:
written before the `TokenType` renaming, it sends `and`/`or` to the tokens
this embedding calls `Ampersand`/`Pipe` (its `BitAnd`/`BitOr`). -/
def is_identifier (fuel : Nat) (st : ScanSt) : Option ScanSt := do
  let st ← identLoop fuel st
  let tt :=
    match lexeme st false with
    | "and" => TokenType.Ampersand
    | "class" => TokenType.Class
    | "else" => TokenType.Else
    | "false" => TokenType.False
    | "for" => TokenType.For
    | "fun" => TokenType.Fun
    | "if" => TokenType.If
    | "nil" => TokenType.Nil
    | "or" => TokenType.Pipe
    | "print" => TokenType.Print
    | "return" => TokenType.Return
    | "super" => TokenType.Super
    | "this" => TokenType.This
    | "true" => TokenType.True
    | "var" => TokenType.Var
    | "while" => TokenType.While
    | "continue" => TokenType.Continue
    | "break" => TokenType.Break
    | _ => TokenType.Identifier
  Option.some (add_token st tt)

/-- `Scanner::scan_token`. -/
def scan_token (fuel : Nat) (st : ScanSt) : Option ScanSt :=
  let (c, st) := advance st
  match c with
  | '(' => Option.some (add_token st TokenType.LeftParen)
  | ')' => Option.some (add_token st TokenType.RightParen)
  | '\x7b' => Option.some (add_token st TokenType.LeftBrace)
  | '\x7d' => Option.some (add_token st TokenType.RightBrace)
  | ',' => Option.some (add_token st TokenType.Comma)
  | '.' => Option.some (add_token st TokenType.Dot)
  | '-' =>
    let (m, st) := match_char st '='
    Option.some (add_token st (if m then TokenType.MinusEqual else TokenType.Minus))
  | '+' =>
    let (m, st) := match_char st '='
    Option.some (add_token st (if m then TokenType.PlusEqual else TokenType.Plus))
  | ';' => Option.some (add_token st TokenType.Semicolon)
  | '*' =>
    let (m, st) := match_char st '='
    Option.some (add_token st (if m then TokenType.StarEqual else TokenType.Star))
  | '!' =>
    let (m, st) := match_char st '='
    Option.some (add_token st (if m then TokenType.BangEqual else TokenType.Bang))
  | '=' =>
    let (m, st) := match_char st '='
    Option.some (add_token st (if m then TokenType.EqualEqual else TokenType.Equal))
  | '^' => Option.some (add_token st TokenType.Xor)
  | '<' =>
    let (m, st) := match_char st '='
    Option.some (add_token st (if m then TokenType.LessEqual else TokenType.Less))
  | '>' =>
    let (m, st) := match_char st '='
    Option.some (add_token st (if m then TokenType.GreaterEqual else TokenType.Greater))
  | '/' =>
    let (m, st) := match_char st '/'
    if m then lineCommentLoop fuel st
    else
      let (m2, st) := match_char st '*'
      if m2 then scan_block_comment fuel st
      else
        let (m3, st) := match_char st '='
        if m3 then Option.some (add_token st TokenType.SlashEqual)
        else Option.some (add_token st TokenType.Slash)
  | '&' =>
    let (m, st) := match_char st '&'
    Option.some (add_token st (if m then TokenType.LogicalAnd else TokenType.Ampersand))
  | '|' =>
    let (m, st) := match_char st '|'
    Option.some (add_token st (if m then TokenType.LogicalOr else TokenType.Pipe))
  | ' ' => Option.some (handle_whitespace st c)
  | '\t' => Option.some (handle_whitespace st c)
  | '\r' => Option.some (handle_whitespace st c)
  | '\n' => Option.some (handle_whitespace st c)
  | '"' => is_string fuel st
  | c =>
    if charIsNumeric c then is_digit fuel st
    else if charIsAlphabetic c ∨ c = '_' then is_identifier fuel st
    else Option.some (handle_error st (ScanError.UnexpectedCharacter c st.line))

/-- The driver loop of `Scanner::scan_tokens`:
`while !is_at_end { start = current; scan_token() }`. -/
def scanLoop : Nat → ScanSt → Option ScanSt
  | 0, _ => Option.none
  | n + 1, st =>
    if is_at_end st then Option.some st
    else do
      let st := { st with start := st.current }
      let st ← scan_token n st
      scanLoop n st

/-- `Scanner::scan_tokens`: run the loop, append `EOF`, and return either all
collected errors or the token stream. -/
def scan_tokens (fuel : Nat) (st : ScanSt) : Option (Except ScannerError Tokens) := do
  let st ← scanLoop fuel st
  let st := { st with tokens := st.tokens ++ [Token.new TokenType.Eof "" st.line Literal.None] }
  if 0 < st.errors.length then
    Option.some (Except.error ⟨st.errors⟩)
  else
    Option.some (Except.ok ⟨st.tokens⟩)

end Scanner

/-- `tokenize` (bottom of scanner.rs): scan a source string. -/
def tokenize (fuel : Nat) (source : String) : Option (Except ScannerError Tokens) :=
  Scanner.scan_tokens fuel (Scanner.new source)

/-! ## AST

Modelled from the spec: the `ast` module in the tree is a stale earlier
generation (no `ExprId`, no `Try`/`Throw`/`Export`, no class superclass), so
the node shapes below follow §3 of the spec and the fields named by the
current parser, resolver and interpreter sources. -/

/-- `ExprId(usize)`: the dense per-parse-session id the parser attaches to
every name-bearing expression (the join key into the resolver side table). -/
abbrev ExprId := Nat

/-- Binary/unary/logical operator tags, as matched by the parser and the
interpreter (`Operator` in the ast module). -/
inductive Operator where
  | Add | Sub | Mul | Div | Mod
  | BitwiseAnd | BitwiseOr | BitwiseXor | BitwiseNot
  | Greater | GreaterEqual | Less | LessEqual
  | Equal | NotEqual | Not
  | LogicalAnd | LogicalOr | AndKeyword | OrKeyword
  deriving Repr, DecidableEq

mutual

/-- Expressions (spec §3; field names from the parser/resolver/interpreter). -/
inductive Expr where
  | Number (value : String)
  | String (value : String)
  | Boolean (value : Bool)
  | Nil
  | List (elements : List Expr)
  | Dict (elements : List (Expr × Expr))
  | Tuple (elements : List Expr)
  | Variable (id : ExprId) (name : Token)
  | Assign (id : ExprId) (name : Token) (expr : Expr)
  | AssignOp (id : ExprId) (name : Token) (op : Operator) (expr : Expr)
  | Logical (left : Expr) (op : Operator) (right : Expr)
  | Binary (left : Expr) (op : Operator) (right : Expr)
  | Unary (op : Operator) (expr : Expr)
  | Grouping (expr : Expr)
  | Call (id : ExprId) (callee : Expr) (args : List Expr)
  | Get (object : Expr) (name : Token)
  | Set (object : Expr) (name : Token) (value : Expr)
  | GetIndex (id : ExprId) (object : Expr) (index : Expr) (bracket : Token)
  | SetIndex (id : ExprId) (object : Expr) (index : Expr) (bracket : Token) (value : Expr)
  | This (id : ExprId) (keyword : Token)
  | Super (id : ExprId) (keyword : Token) (method : Token)
  | Lambda (id : ExprId) (params : List Token) (body : List Stmt)
  deriving BEq

/-- Statements (spec §3; field names from the parser and interpreter). -/
inductive Stmt where
  | Expression (expr : Expr)
  | Empty
  | VarDecl (name : Token) (initializer : Option Expr)
  | Function (name : Token) (params : List Token) (body : List Stmt)
  | Class (name : Token) (superclass : Option Expr) (methods : List Stmt)
  | Block (body : List Stmt)
  | If (condition : Expr) (then_branch : Stmt) (else_branch : Option Stmt)
  | While (condition : Expr) (body : Stmt)
  | For (initializer : Option Stmt) (condition : Option Expr) (increment : Option Expr)
        (body : Stmt)
  | Print (expr : Expr)
  | Return (keyword : Token) (value : Option Expr)
  | Break
  | Continue
  | Try (try_branch : Stmt) (catch_var : Token) (catch_branch : Stmt)
  | Throw (expr : Expr)
  | Export (stmt : Stmt)
  deriving BEq

end

/-- The parse result (`AST { body: Vec<Stmt> }`). -/
structure AST where
  body : List Stmt

/-! ## Parser (src/parser/parse.rs and src/parser/{expression,statement}/)

`ParseHelper` is the parser state machine.  The statement parsers in the
tree's `statement/control.rs` predate the `Stmt` type (they produce `Expr`
statement nodes); they are embedded here producing the `Stmt` forms that
`parse.rs` expects, with their logic (including the loop-depth and
function-depth checks) unchanged.  `parse_throw_statement` and the
`this` / `super` / lambda / list / dict / property / index arms of the
primary and postfix parsers are absent from the tree and are modelled from
the spec (§4.2), marked below. -/

/-- Parse error (`parser::Error`): message plus token position. -/
structure PError where
  message : String
  position : Nat
  deriving Repr, DecidableEq

/-- The mutable fields of `ParseHelper`. -/
structure ParseSt where
  tokens : List Token
  index : Nat
  loop_depth : Nat
  func_depth : Nat
  next_id : Nat
  deriving Repr

/-- Parser computations. -/
abbrev PM (α : Type) := StM ParseSt PError α

namespace ParseHelper

/-- Fallback token for out-of-range indexing.  The Rust code indexes the
token vector directly; the vector is scanner output, which always ends with
`EOF`, so the fallback is never observable on pipeline inputs. -/
def dummyToken : Token := Token.new TokenType.Eof "" 0 Literal.None

/-- `ParseHelper::peek`. -/
def peek (st : ParseSt) : Token :=
  if st.tokens.length ≤ st.index then (st.tokens.getLast?).getD dummyToken
  else st.tokens.getD st.index dummyToken

/-- `ParseHelper::is_at_end`. -/
def is_at_end (st : ParseSt) : Bool := (peek st).token_type = TokenType.Eof

/-- `ParseHelper::previous`. -/
def previous (st : ParseSt) : Token :=
  if st.index = 0 then st.tokens.getD 0 dummyToken
  else st.tokens.getD (st.index - 1) dummyToken

/-- `ParseHelper::check`. -/
def check (st : ParseSt) (tt : TokenType) : Bool :=
  if is_at_end st ∧ tt ≠ TokenType.Eof then false
  else (peek st).token_type = tt

/-- `ParseHelper::advance` (returns the consumed token). -/
def advance (st : ParseSt) : Token × ParseSt :=
  let st := if ¬ is_at_end st then { st with index := st.index + 1 } else st
  (previous st, st)

/-- `ParseHelper::match_token`. -/
def match_token (types : List TokenType) : PM Bool := fun st =>
  if types.any (fun t => check st t) then
    let (_, st) := advance st
    (RRes.ok true, st)
  else (RRes.ok false, st)

/-- `ParseHelper::error`. -/
def error (st : ParseSt) (token : Token) (message : String) : PError :=
  ⟨"[line " ++ toString token.line ++ "]: " ++ message, st.index⟩

/-- `ParseHelper::consume`. -/
def consume (tt : TokenType) (message : String) : PM Token := fun st =>
  if check st tt then
    let (t, st) := advance st
    (RRes.ok t, st)
  else (RRes.err (error st (peek st) message), st)

/-- `ParseHelper::generate_id`. -/
def generate_id : PM ExprId := fun st =>
  (RRes.ok st.next_id, { st with next_id := st.next_id + 1 })

mutual

/-- `ParseHelper::parse_expression`. -/
def parse_expression : Nat → PM Expr
  | 0 => fuelS
  | n + 1 => parse_assignment n

/-- `ParseHelper::parse_assignment` (parse.rs). -/
def parse_assignment : Nat → PM Expr
  | 0 => fuelS
  | n + 1 => do
    let expr ← parse_or n
    let m ← match_token [TokenType.Equal, TokenType.PlusEqual, TokenType.MinusEqual,
      TokenType.StarEqual, TokenType.SlashEqual]
    if m then do
      let operator_token ← (fun st => (RRes.ok (previous st), st))
      let value ← parse_assignment n
      match expr with
      | Expr.Variable _ name => do
        let id ← generate_id
        match operator_token.token_type with
        | TokenType.Equal => pure (Expr.Assign id name value)
        | TokenType.PlusEqual => pure (Expr.AssignOp id name Operator.Add value)
        | TokenType.MinusEqual => pure (Expr.AssignOp id name Operator.Sub value)
        | TokenType.StarEqual => pure (Expr.AssignOp id name Operator.Mul value)
        | TokenType.SlashEqual => pure (Expr.AssignOp id name Operator.Div value)
        | _ => panicS "internal error: entered unreachable code"
      | Expr.Get object name =>
        match operator_token.token_type with
        | TokenType.Equal => pure (Expr.Set object name value)
        | _ => fun st =>
          (RRes.err (error st operator_token
            "Compound assignment not supported on properties yet."), st)
      | Expr.GetIndex _ object index bracket =>
        match operator_token.token_type with
        | TokenType.Equal => do
          let id ← generate_id
          pure (Expr.SetIndex id object index bracket value)
        | _ => fun st =>
          (RRes.err (error st operator_token
            "Compound assignment not supported on subscripts yet."), st)
      | _ => fun st =>
        (RRes.err (error st operator_token "Invalid assignment target."), st)
    else pure expr

/-- The `while` loop of `parse_or`. -/
def parse_or_loop : Nat → Expr → PM Expr
  | 0, _ => fuelS
  | n + 1, expr => do
    let m ← match_token [TokenType.LogicalOr, TokenType.Or]
    if m then do
      let right ← parse_and n
      parse_or_loop n (Expr.Logical expr Operator.LogicalOr right)
    else pure expr

/-- `ParseHelper::parse_or`. -/
def parse_or : Nat → PM Expr
  | 0 => fuelS
  | n + 1 => do
    let expr ← parse_and n
    parse_or_loop n expr

/-- The `while` loop of `parse_and`. -/
def parse_and_loop : Nat → Expr → PM Expr
  | 0, _ => fuelS
  | n + 1, expr => do
    let m ← match_token [TokenType.LogicalAnd, TokenType.And]
    if m then do
      let right ← parse_equality n
      parse_and_loop n (Expr.Logical expr Operator.LogicalAnd right)
    else pure expr

/-- `ParseHelper::parse_and`. -/
def parse_and : Nat → PM Expr
  | 0 => fuelS
  | n + 1 => do
    let expr ← parse_equality n
    parse_and_loop n expr

/-- The `while` loop of `parse_equality` (binary.rs). -/
def parse_equality_loop : Nat → Expr → PM Expr
  | 0, _ => fuelS
  | n + 1, expr => do
    let m ← match_token [TokenType.EqualEqual, TokenType.BangEqual]
    if m then do
      let op ← (fun st => (RRes.ok
        (if (previous st).token_type = TokenType.EqualEqual then Operator.Equal
         else Operator.NotEqual), st))
      let right ← parse_comparison n
      parse_equality_loop n (Expr.Binary expr op right)
    else pure expr

/-- `ParseHelper::parse_equality` (binary.rs). -/
def parse_equality : Nat → PM Expr
  | 0 => fuelS
  | n + 1 => do
    let expr ← parse_comparison n
    parse_equality_loop n expr

/-- The `while` loop of `parse_comparison`. -/
def parse_comparison_loop : Nat → Expr → PM Expr
  | 0, _ => fuelS
  | n + 1, expr => do
    let m ← match_token [TokenType.Less, TokenType.LessEqual, TokenType.Greater,
      TokenType.GreaterEqual]
    if m then do
      let op ← (fun st => (RRes.ok
        (match (previous st).token_type with
         | TokenType.Less => Operator.Less
         | TokenType.LessEqual => Operator.LessEqual
         | TokenType.Greater => Operator.Greater
         | _ => Operator.GreaterEqual), st))
      let right ← parse_bitwise_or n
      parse_comparison_loop n (Expr.Binary expr op right)
    else pure expr

/-- `ParseHelper::parse_comparison` (binary.rs). -/
def parse_comparison : Nat → PM Expr
  | 0 => fuelS
  | n + 1 => do
    let expr ← parse_bitwise_or n
    parse_comparison_loop n expr

/-- The `while` loop of `parse_bitwise_or`. -/
def parse_bitwise_or_loop : Nat → Expr → PM Expr
  | 0, _ => fuelS
  | n + 1, expr => do
    let m ← match_token [TokenType.Pipe]
    if m then do
      let right ← parse_bitwise_xor n
      parse_bitwise_or_loop n (Expr.Binary expr Operator.BitwiseOr right)
    else pure expr

/-- `ParseHelper::parse_bitwise_or` (binary.rs). -/
def parse_bitwise_or : Nat → PM Expr
  | 0 => fuelS
  | n + 1 => do
    let expr ← parse_bitwise_xor n
    parse_bitwise_or_loop n expr

/-- The `while` loop of `parse_bitwise_xor`. -/
def parse_bitwise_xor_loop : Nat → Expr → PM Expr
  | 0, _ => fuelS
  | n + 1, expr => do
    let m ← match_token [TokenType.Xor]
    if m then do
      let right ← parse_bitwise_and n
      parse_bitwise_xor_loop n (Expr.Binary expr Operator.BitwiseXor right)
    else pure expr

/-- `ParseHelper::parse_bitwise_xor` (binary.rs). -/
def parse_bitwise_xor : Nat → PM Expr
  | 0 => fuelS
  | n + 1 => do
    let expr ← parse_bitwise_and n
    parse_bitwise_xor_loop n expr

/-- The `while` loop of `parse_bitwise_and`. -/
def parse_bitwise_and_loop : Nat → Expr → PM Expr
  | 0, _ => fuelS
  | n + 1, expr => do
    let m ← match_token [TokenType.Ampersand]
    if m then do
      let right ← parse_term n
      parse_bitwise_and_loop n (Expr.Binary expr Operator.BitwiseAnd right)
    else pure expr

/-- `ParseHelper::parse_bitwise_and` (binary.rs). -/
def parse_bitwise_and : Nat → PM Expr
  | 0 => fuelS
  | n + 1 => do
    let expr ← parse_term n
    parse_bitwise_and_loop n expr

/-- The `while` loop of `parse_term`. -/
def parse_term_loop : Nat → Expr → PM Expr
  | 0, _ => fuelS
  | n + 1, expr => do
    let m ← match_token [TokenType.Plus, TokenType.Minus]
    if m then do
      let op ← (fun st => (RRes.ok
        (if (previous st).token_type = TokenType.Plus then Operator.Add
         else Operator.Sub), st))
      let right ← parse_factor n
      parse_term_loop n (Expr.Binary expr op right)
    else pure expr

/-- `ParseHelper::parse_term` (binary.rs). -/
def parse_term : Nat → PM Expr
  | 0 => fuelS
  | n + 1 => do
    let expr ← parse_factor n
    parse_term_loop n expr

/-- The `while` loop of `parse_factor`. -/
def parse_factor_loop : Nat → Expr → PM Expr
  | 0, _ => fuelS
  | n + 1, expr => do
    let m ← match_token [TokenType.Star, TokenType.Slash, TokenType.Percent]
    if m then do
      let op ← (fun st => (RRes.ok
        (match (previous st).token_type with
         | TokenType.Star => Operator.Mul
         | TokenType.Slash => Operator.Div
         | _ => Operator.Mod), st))
      let right ← parse_unary n
      parse_factor_loop n (Expr.Binary expr op right)
    else pure expr

/-- `ParseHelper::parse_factor` (binary.rs). -/
def parse_factor : Nat → PM Expr
  | 0 => fuelS
  | n + 1 => do
    let expr ← parse_unary n
    parse_factor_loop n expr

/-- `ParseHelper::parse_unary` (unary.rs). -/
def parse_unary : Nat → PM Expr
  | 0 => fuelS
  | n + 1 => do
    let m ← match_token [TokenType.Bang, TokenType.Minus]
    if m then do
      let op ← (fun st => (RRes.ok
        (if (previous st).token_type = TokenType.Minus then Operator.Sub
         else Operator.Not), st))
      let right ← parse_unary n
      pure (Expr.Unary op right)
    else parse_call n

/-- The postfix loop of `ParseHelper::parse_call` (primary.rs).  The tree's
loop handles only `(`; the `.`-property and `[`-index arms are modelled from
the spec's call/property/index precedence level. -/
def parse_call_loop : Nat → Expr → PM Expr
  | 0, _ => fuelS
  | n + 1, expr => do
    let m ← match_token [TokenType.LeftParen]
    if m then do
      let expr ← finish_call n expr
      parse_call_loop n expr
    else do
      let mdot ← match_token [TokenType.Dot]
      if mdot then do
        let name ← consume TokenType.Identifier "Expect property name after '.'."
        parse_call_loop n (Expr.Get expr name)
      else do
        let mbr ← match_token [TokenType.LeftBracket]
        if mbr then do
          let index ← parse_expression n
          let bracket ← consume TokenType.RightBracket "Expect ']' after index."
          let id ← generate_id
          parse_call_loop n (Expr.GetIndex id expr index bracket)
        else pure expr

/-- `ParseHelper::parse_call` (primary.rs). -/
def parse_call : Nat → PM Expr
  | 0 => fuelS
  | n + 1 => do
    let expr ← parse_primary n
    parse_call_loop n expr

/-- The argument loop of `finish_call`.  The 255-argument check constructs an
error value and discards it (`let _ = self.error(...)`), which has no
effect; it is therefore not modelled. -/
def finish_call_args : Nat → List Expr → PM (List Expr)
  | 0, _ => fuelS
  | n + 1, args => do
    let arg ← parse_expression n
    let args := args ++ [arg]
    let m ← match_token [TokenType.Comma]
    if m then finish_call_args n args
    else pure args

/-- `ParseHelper::finish_call` (primary.rs). -/
def finish_call : Nat → Expr → PM Expr
  | 0, _ => fuelS
  | n + 1, callee => do
    let noArgs ← (fun st => (RRes.ok (check st TokenType.RightParen), st))
    let args ← if noArgs then pure [] else finish_call_args n []
    let _ ← consume TokenType.RightParen "Expect ')' after arguments."
    let id ← generate_id
    pure (Expr.Call id callee args)

/-- `ParseHelper::parse_primary` (primary.rs).  The literal, identifier and
grouping arms are from the tree; the `this`, `super`, lambda, list and dict
arms are modelled from the spec's primary row (the tree's file predates
them). -/
def parse_primary : Nat → PM Expr
  | 0 => fuelS
  | n + 1 => do
    let m ← match_token [TokenType.False]
    if m then pure (Expr.Boolean false) else do
    let m ← match_token [TokenType.True]
    if m then pure (Expr.Boolean true) else do
    let m ← match_token [TokenType.Nil]
    if m then pure Expr.Nil else do
    let m ← match_token [TokenType.Number]
    if m then do
      let value ← (fun st => (RRes.ok
        (match (previous st).literal with
         | Literal.Number q => numberDisplay q
         | _ => "0"), st))
      pure (Expr.Number value)
    else do
    let m ← match_token [TokenType.String]
    if m then do
      let value ← (fun st => (RRes.ok
        (match (previous st).literal with
         | Literal.String s => s
         | _ => ""), st))
      pure (Expr.String value)
    else do
    let m ← match_token [TokenType.Identifier]
    if m then do
      let name ← (fun st => (RRes.ok (previous st), st))
      let id ← generate_id
      pure (Expr.Variable id name)
    else do
    let m ← match_token [TokenType.This]
    if m then do
      let keyword ← (fun st => (RRes.ok (previous st), st))
      let id ← generate_id
      pure (Expr.This id keyword)
    else do
    let m ← match_token [TokenType.Super]
    if m then do
      let keyword ← (fun st => (RRes.ok (previous st), st))
      let _ ← consume TokenType.Dot "Expect '.' after 'super'."
      let method ← consume TokenType.Identifier "Expect superclass method name."
      let id ← generate_id
      pure (Expr.Super id keyword method)
    else do
    let m ← match_token [TokenType.Fun]
    if m then parse_lambda n
    else do
    let m ← match_token [TokenType.LeftBracket]
    if m then parse_list n
    else do
    let m ← match_token [TokenType.LeftBrace]
    if m then parse_dict n
    else do
    let m ← match_token [TokenType.LeftParen]
    if m then do
      let expr ← parse_expression n
      let _ ← consume TokenType.RightParen "Expected ')' after expression."
      pure (Expr.Grouping expr)
    else fun st =>
      (RRes.err (error st (peek st)
        ("Unexpected token '" ++ reprStr (peek st).token_type ++
         "'. Expected a primary expression (boolean, number, string, identifier, or grouping expression).")), st)

/-- The element loop of `parse_list`. -/
def parse_list_elems : Nat → List Expr → PM (List Expr)
  | 0, _ => fuelS
  | n + 1, elems => do
    let e ← parse_expression n
    let elems := elems ++ [e]
    let m ← match_token [TokenType.Comma]
    if m then parse_list_elems n elems
    else pure elems

/-- `ParseHelper::parse_list` (parse.rs).  The guard faithfully tests
`!check(LeftBracket)` as the source does (so an empty `[]` literal falls into
the element loop and errors, as in Rust). -/
def parse_list : Nat → PM Expr
  | 0 => fuelS
  | n + 1 => do
    let nonEmpty ← (fun st => (RRes.ok (! check st TokenType.LeftBracket), st))
    let elements ← if nonEmpty then parse_list_elems n [] else pure []
    let _ ← consume TokenType.RightBracket "Expect ']' after list elements."
    pure (Expr.List elements)

/-- The entry loop of `parse_dict`. -/
def parse_dict_elems : Nat → List (Expr × Expr) → PM (List (Expr × Expr))
  | 0, _ => fuelS
  | n + 1, elems => do
    let k ← parse_expression n
    let _ ← consume TokenType.Colon "Expect ':' after dictionary key."
    let v ← parse_expression n
    let elems := elems ++ [(k, v)]
    let m ← match_token [TokenType.Comma]
    if m then parse_dict_elems n elems
    else pure elems

/-- `ParseHelper::parse_dict` (parse.rs); guard kept as in the source. -/
def parse_dict : Nat → PM Expr
  | 0 => fuelS
  | n + 1 => do
    let nonEmpty ← (fun st => (RRes.ok (! check st TokenType.LeftBrace), st))
    let elements ← if nonEmpty then parse_dict_elems n [] else pure []
    let _ ← consume TokenType.RightBrace "Expect '\x7d' after dictionary elements."
    pure (Expr.Dict elements)

/-- `ParseHelper::parse_statement` (parse.rs). -/
def parse_statement : Nat → PM Stmt
  | 0 => fuelS
  | n + 1 => do
    let m ← match_token [TokenType.If]
    if m then parse_if_statement n else do
    let m ← match_token [TokenType.Try]
    if m then parse_try_statement n else do
    let m ← match_token [TokenType.Throw]
    if m then parse_throw_statement n else do
    let m ← match_token [TokenType.While]
    if m then parse_while_statement n else do
    let m ← match_token [TokenType.Var]
    if m then parse_var_declaration n else do
    let m ← match_token [TokenType.Fun]
    if m then parse_function_declaration n else do
    let m ← match_token [TokenType.Class]
    if m then parse_class_declaration n else do
    let m ← match_token [TokenType.Semicolon]
    if m then pure Stmt.Empty else do
    let m ← match_token [TokenType.LeftBrace]
    if m then do
      let statements ← parse_block n
      pure (Stmt.Block statements)
    else do
    let m ← match_token [TokenType.Return]
    if m then parse_return_statement n else do
    let m ← match_token [TokenType.For]
    if m then parse_for_statement n else do
    let m ← match_token [TokenType.Break]
    if m then parse_break_statement n else do
    let m ← match_token [TokenType.Continue]
    if m then parse_continue_statement n else do
    let m ← match_token [TokenType.Print]
    if m then parse_print_statement n else do
    let m ← match_token [TokenType.Export]
    if m then parse_export_statement n
    else parse_expression_statement n

/-- `ParseHelper::parse_expression_statement` (parse.rs). -/
def parse_expression_statement : Nat → PM Stmt
  | 0 => fuelS
  | n + 1 => do
    let expr ← parse_expression n
    let _ ← consume TokenType.Semicolon "Expect ';' after expression."
    pure (Stmt.Expression expr)

/-- `ParseHelper::parse_if_statement` (control.rs, producing `Stmt`). -/
def parse_if_statement : Nat → PM Stmt
  | 0 => fuelS
  | n + 1 => do
    let _ ← consume TokenType.LeftParen "Expect '(' after 'if'."
    let condition ← parse_expression n
    let _ ← consume TokenType.RightParen "Expect ')' after if condition."
    let then_branch ← parse_statement n
    let m ← match_token [TokenType.Else]
    if m then do
      let else_branch ← parse_statement n
      pure (Stmt.If condition then_branch (Option.some else_branch))
    else pure (Stmt.If condition then_branch Option.none)

/-- `ParseHelper::parse_while_statement` (control.rs): the loop depth is
incremented around the body parse and restored even when the body fails. -/
def parse_while_statement : Nat → PM Stmt
  | 0 => fuelS
  | n + 1 => do
    let _ ← consume TokenType.LeftParen "Expect '(' after 'while'."
    let condition ← parse_expression n
    let _ ← consume TokenType.RightParen "Expect ')' after condition."
    fun st =>
      let st := { st with loop_depth := st.loop_depth + 1 }
      let (body_result, st) := parse_statement n st
      let st := { st with loop_depth := st.loop_depth - 1 }
      match body_result with
      | RRes.ok body => (RRes.ok (Stmt.While condition body), st)
      | RRes.err e => (RRes.err e, st)
      | RRes.panicked msg => (RRes.panicked msg, st)
      | RRes.fuel => (RRes.fuel, st)

/-- `ParseHelper::parse_for_statement` (control.rs, producing `Stmt`). -/
def parse_for_statement : Nat → PM Stmt
  | 0 => fuelS
  | n + 1 => do
    let _ ← consume TokenType.LeftParen "Expect '(' after 'for'."
    let m ← match_token [TokenType.Semicolon]
    let initializer ←
      if m then pure Option.none
      else do
        let mv ← match_token [TokenType.Var]
        if mv then do
          let s ← parse_var_declaration n
          pure (Option.some s)
        else do
          let s ← parse_expression_statement n
          pure (Option.some s)
    let noCond ← (fun st => (RRes.ok (check st TokenType.Semicolon), st))
    let condition ←
      if noCond then pure Option.none
      else do
        let c ← parse_expression n
        pure (Option.some c)
    let _ ← consume TokenType.Semicolon "Expect ';' after for condition."
    let noIncr ← (fun st => (RRes.ok (check st TokenType.RightParen), st))
    let increment ←
      if noIncr then pure Option.none
      else do
        let i ← parse_expression n
        pure (Option.some i)
    let _ ← consume TokenType.RightParen "Expect ')' after for clauses."
    fun st =>
      let st := { st with loop_depth := st.loop_depth + 1 }
      let (body_result, st) := parse_statement n st
      let st := { st with loop_depth := st.loop_depth - 1 }
      match body_result with
      | RRes.ok body => (RRes.ok (Stmt.For initializer condition increment body), st)
      | RRes.err e => (RRes.err e, st)
      | RRes.panicked msg => (RRes.panicked msg, st)
      | RRes.fuel => (RRes.fuel, st)

/-- `ParseHelper::parse_break_statement` (control.rs): rejected when the
loop depth is zero. -/
def parse_break_statement : Nat → PM Stmt
  | 0 => fuelS
  | _ + 1 => fun st =>
    if st.loop_depth = 0 then
      (RRes.err (error st (previous st) "Cannot use 'break' outside of a loop."), st)
    else
      match consume TokenType.Semicolon "Expect ';' after 'break'." st with
      | (RRes.ok _, st) => (RRes.ok Stmt.Break, st)
      | (RRes.err e, st) => (RRes.err e, st)
      | (RRes.panicked m, st) => (RRes.panicked m, st)
      | (RRes.fuel, st) => (RRes.fuel, st)

/-- `ParseHelper::parse_continue_statement` (control.rs); the `';'` message
says 'break' exactly as the source does. -/
def parse_continue_statement : Nat → PM Stmt
  | 0 => fuelS
  | _ + 1 => fun st =>
    if st.loop_depth = 0 then
      (RRes.err (error st (previous st) "Cannot use 'continue' outside of a loop."), st)
    else
      match consume TokenType.Semicolon "Expect ';' after 'break'." st with
      | (RRes.ok _, st) => (RRes.ok Stmt.Continue, st)
      | (RRes.err e, st) => (RRes.err e, st)
      | (RRes.panicked m, st) => (RRes.panicked m, st)
      | (RRes.fuel, st) => (RRes.fuel, st)

/-- `ParseHelper::parse_return_statement` (compound.rs).  Note the faithful
port of the source's slip: when `func_depth == 0` the error value produced by
`self.error(...)` is discarded, not returned, so a top-level `return` parses
successfully. -/
def parse_return_statement : Nat → PM Stmt
  | 0 => fuelS
  | n + 1 => do
    let keyword ← (fun st => (RRes.ok (previous st), st))
    let _discarded ← (fun st =>
      (RRes.ok (if st.func_depth = 0 then
        Option.some (error st keyword "Cannot return from top-level code.")
      else Option.none), st))
    let hasValue ← (fun st => (RRes.ok (! check st TokenType.Semicolon), st))
    let value ←
      if hasValue then do
        let v ← parse_expression n
        pure (Option.some v)
      else pure Option.none
    let _ ← consume TokenType.Semicolon "Expect ';' after return value."
    pure (Stmt.Return keyword value)

/-- The statement loop of `parse_block` (compound.rs). -/
def parse_block_loop : Nat → List Stmt → PM (List Stmt)
  | 0, _ => fuelS
  | n + 1, statements => fun st =>
    if ¬ check st TokenType.RightBrace ∧ ¬ is_at_end st then
      match parse_statement n st with
      | (RRes.ok s, st) => parse_block_loop n (statements ++ [s]) st
      | (RRes.err e, st) => (RRes.err e, st)
      | (RRes.panicked m, st) => (RRes.panicked m, st)
      | (RRes.fuel, st) => (RRes.fuel, st)
    else (RRes.ok statements, st)

/-- `ParseHelper::parse_block` (compound.rs). -/
def parse_block : Nat → PM (List Stmt)
  | 0 => fuelS
  | n + 1 => do
    let statements ← parse_block_loop n []
    let _ ← consume TokenType.RightBrace "Expect '\x7d' after block."
    pure statements

/-- `ParseHelper::parse_print_statement` (compound.rs). -/
def parse_print_statement : Nat → PM Stmt
  | 0 => fuelS
  | n + 1 => do
    let expr ← parse_expression n
    let _ ← consume TokenType.Semicolon "Expect ';' after value."
    pure (Stmt.Print expr)

/-- `ParseHelper::parse_var_declaration` (declaration.rs). -/
def parse_var_declaration : Nat → PM Stmt
  | 0 => fuelS
  | n + 1 => do
    let name ← consume TokenType.Identifier "Expect variable name."
    let m ← match_token [TokenType.Equal]
    let initializer ←
      if m then do
        let e ← parse_expression n
        pure (Option.some e)
      else pure Option.none
    let _ ← consume TokenType.Semicolon "Expect ';' after variable declaration."
    pure (Stmt.VarDecl name initializer)

/-- `ParseHelper::parse_function_declaration` (declaration.rs). -/
def parse_function_declaration : Nat → PM Stmt
  | 0 => fuelS
  | n + 1 => parse_function n "function"

/-- `ParseHelper::parse_function` (declaration.rs). -/
def parse_function : Nat → String → PM Stmt
  | 0, _ => fuelS
  | n + 1, kind => do
    let name ← consume TokenType.Identifier ("Expect " ++ kind ++ " name.")
    let pb ← parse_function_params_and_body n kind
    pure (Stmt.Function name pb.1 pb.2)

/-- `ParseHelper::parse_lambda` (declaration.rs). -/
def parse_lambda : Nat → PM Expr
  | 0 => fuelS
  | n + 1 => do
    let pb ← parse_function_params_and_body n "lambda"
    let id ← generate_id
    pure (Expr.Lambda id pb.1 pb.2)

/-- The parameter loop of `parse_function_params_and_body`.  The
255-parameter check constructs and discards an error value (`let _ =`),
which has no effect. -/
def parse_params_loop : Nat → List Token → PM (List Token)
  | 0, _ => fuelS
  | n + 1, params => do
    let p ← consume TokenType.Identifier "Expect parameter name."
    let params := params ++ [p]
    let m ← match_token [TokenType.Comma]
    if m then parse_params_loop n params
    else pure params

/-- `ParseHelper::parse_function_params_and_body` (declaration.rs): inside a
function body the function depth is incremented and the loop depth reset to
zero, both restored on exit even when the body fails. -/
def parse_function_params_and_body : Nat → String → PM (List Token × List Stmt)
  | 0, _ => fuelS
  | n + 1, kind => do
    let _ ← consume TokenType.LeftParen ("Expect '(' after " ++ kind ++ " declaration.")
    let noParams ← (fun st => (RRes.ok (check st TokenType.RightParen), st))
    let params ← if noParams then pure [] else parse_params_loop n []
    let _ ← consume TokenType.RightParen "Expect ')' after parameters."
    let _ ← consume TokenType.LeftBrace ("Expect '\x7b' before " ++ kind ++ " body.")
    fun st =>
      let previous_func_depth := st.func_depth
      let previous_loop_depth := st.loop_depth
      let st := { st with func_depth := st.func_depth + 1, loop_depth := 0 }
      let (body_result, st) := parse_block n st
      let st := { st with func_depth := previous_func_depth,
                          loop_depth := previous_loop_depth }
      match body_result with
      | RRes.ok body => (RRes.ok (params, body), st)
      | RRes.err e => (RRes.err e, st)
      | RRes.panicked m => (RRes.panicked m, st)
      | RRes.fuel => (RRes.fuel, st)

/-- The method loop of `parse_class_declaration`. -/
def parse_class_methods : Nat → List Stmt → PM (List Stmt)
  | 0, _ => fuelS
  | n + 1, methods => fun st =>
    if ¬ check st TokenType.RightBrace ∧ ¬ is_at_end st then
      match parse_function n "method" st with
      | (RRes.ok m, st) => parse_class_methods n (methods ++ [m]) st
      | (RRes.err e, st) => (RRes.err e, st)
      | (RRes.panicked m, st) => (RRes.panicked m, st)
      | (RRes.fuel, st) => (RRes.fuel, st)
    else (RRes.ok methods, st)

/-- `ParseHelper::parse_class_declaration` (declaration.rs). -/
def parse_class_declaration : Nat → PM Stmt
  | 0 => fuelS
  | n + 1 => do
    let name ← consume TokenType.Identifier "Expect class name."
    let m ← match_token [TokenType.Less]
    let superclass ←
      if m then do
        let _ ← consume TokenType.Identifier "Expect superclass name."
        let superName ← (fun st => (RRes.ok (previous st), st))
        let id ← generate_id
        pure (Option.some (Expr.Variable id superName))
      else pure Option.none
    let _ ← consume TokenType.LeftBrace "Expect '\x7b' before class body."
    let methods ← parse_class_methods n []
    let _ ← consume TokenType.RightBrace "Expect '\x7d' after class body."
    pure (Stmt.Class name superclass methods)

/-- `ParseHelper::parse_export_statement` (declaration.rs). -/
def parse_export_statement : Nat → PM Stmt
  | 0 => fuelS
  | n + 1 => do
    let mc ← match_token [TokenType.Class]
    if mc then do
      let s ← parse_class_declaration n
      pure (Stmt.Export s)
    else do
      let mf ← match_token [TokenType.Fun]
      if mf then do
        let s ← parse_function_declaration n
        pure (Stmt.Export s)
      else do
        let mv ← match_token [TokenType.Var]
        if mv then do
          let s ← parse_var_declaration n
          pure (Stmt.Export s)
        else fun st =>
          (RRes.err (error st (peek st) "Expect declaration after 'export'."), st)

/-- `ParseHelper::parse_try_statement` (exception.rs). -/
def parse_try_statement : Nat → PM Stmt
  | 0 => fuelS
  | n + 1 => do
    let _ ← consume TokenType.LeftBrace "Expect '\x7b' after 'try'."
    let try_body ← parse_block n
    let _ ← consume TokenType.Catch "Expect 'catch' after try block."
    let _ ← consume TokenType.LeftParen "Expect '(' after 'catch'."
    let catch_var ← consume TokenType.Identifier "Expect catch variable name."
    let _ ← consume TokenType.RightParen "Expect ')' after catch variable."
    let _ ← consume TokenType.LeftBrace "Expect '\x7b' after catch clause."
    let catch_body ← parse_block n
    pure (Stmt.Try (Stmt.Block try_body) catch_var (Stmt.Block catch_body))

/-- Modelled from the spec: `parse_throw_statement` is called by
`parse_statement` but is absent from the tree; the spec's statement grammar
(`throw` expression `;`) gives its shape. -/
def parse_throw_statement : Nat → PM Stmt
  | 0 => fuelS
  | n + 1 => do
    let expr ← parse_expression n
    let _ ← consume TokenType.Semicolon "Expect ';' after throw value."
    pure (Stmt.Throw expr)

/-- The statement loop of `parse_program` (parse.rs). -/
def parse_program_loop : Nat → List Stmt → PM (List Stmt)
  | 0, _ => fuelS
  | n + 1, statements => fun st =>
    if ¬ is_at_end st then
      match parse_statement n st with
      | (RRes.ok s, st) => parse_program_loop n (statements ++ [s]) st
      | (RRes.err e, st) => (RRes.err e, st)
      | (RRes.panicked m, st) => (RRes.panicked m, st)
      | (RRes.fuel, st) => (RRes.fuel, st)
    else (RRes.ok statements, st)

/-- `ParseHelper::parse_program` (parse.rs). -/
def parse_program : Nat → PM (List Stmt)
  | 0 => fuelS
  | n + 1 => parse_program_loop n []

end

end ParseHelper

/-- `Parser::new` (parse.rs): a fresh parser state over a token stream.  Note
`next_id` restarts at `0` for every parse session. -/
def parserNew (tokens : Tokens) : ParseSt :=
  ⟨tokens.tokens, 0, 0, 0, 0⟩

/-- `parse` (parse.rs): run the program parser over a token stream. -/
def parse (fuel : Nat) (tokens : Tokens) : RRes PError AST × ParseSt :=
  match ParseHelper.parse_program fuel (parserNew tokens) with
  | (RRes.ok statements, st) => (RRes.ok ⟨statements⟩, st)
  | (RRes.err e, st) => (RRes.err e, st)
  | (RRes.panicked m, st) => (RRes.panicked m, st)
  | (RRes.fuel, st) => (RRes.fuel, st)

/-! ## Runtime values (src/evaluate/value.rs)

`Rc<RefCell<...>>` containers (environments, lists, dicts, classes,
instances, modules) are heap indices; the heaps live in the interpreter
state `Interp` below.  Native function pointers become the `NativeFn` enum
(two pointers are `PartialEq`-equal exactly when they are the same
function, i.e. the same enum value). -/

/-- Alias for `String` usable where a constructor named `String` is in
scope and shadows the type name. -/
abbrev Str := String

/-- The native functions installed by `init_globals` and the std_lib lookup
tables.  `math` natives are modelled from the spec (the `math` module
builder is absent from the tree); their bodies are spec-declared
out-of-scope collaborators. -/
inductive NativeFn where
  | clock
  | input
  | importNative
  | fsReadFile
  | fsWriteFile
  | fsExists
  | mathFn (name : String)
  | listPush
  | listPop
  | listLen
  | listInsert
  | listJoin
  | listReverse
  | stringLen
  | stringSplit
  | stringSubstring
  | stringReplace
  deriving Repr, DecidableEq

mutual

/-- Runtime values (`Value` in value.rs).  Container variants hold heap
indices; `closure` is an environment heap index. -/
inductive Value where
  | Number (n : Q)
  | String (s : String)
  | Boolean (b : Bool)
  | Nil
  | None
  | Function (name : Str) (args : List Str) (body : List Stmt) (closure : Nat)
  | Class (r : Nat)
  | Instance (r : Nat)
  | List (r : Nat)
  | Tuple (elems : List Value)
  | Dict (r : Nat)
  | Print (s : Str)
  | NativeFunction (name : Str) (arity : Nat) (func : NativeFn)
  | BoundNativeMethod (receiver : Value) (method : Value)
  | Module (r : Nat)

/-- `RoxClass` (value.rs): name, method table, optional superclass (a class
heap index). -/
inductive RoxClass where
  | mk (name : Str) (methods : List (Str × Value)) (superclass : Option Nat)

/-- `RoxInstance` (value.rs): owning class (a class heap index) and the
field map. -/
inductive RoxInstance where
  | mk (cls : Nat) (fields : List (Str × Value))

/-- `RoxModule` (std_lib value module, shape fixed by value.rs): name,
exports map, and the initialisation flag that distinguishes a module still
loading from a finished one. -/
inductive RoxModule where
  | mk (name : Str) (exports : List (Str × Value)) (is_initialized : Bool)

end

/-- Class name. -/
def RoxClass.name : RoxClass → String
  | RoxClass.mk n _ _ => n

/-- Class method table. -/
def RoxClass.methods : RoxClass → List (String × Value)
  | RoxClass.mk _ m _ => m

/-- Class superclass reference. -/
def RoxClass.superclass : RoxClass → Option Nat
  | RoxClass.mk _ _ s => s

/-- Instance class reference. -/
def RoxInstance.cls : RoxInstance → Nat
  | RoxInstance.mk c _ => c

/-- Instance field map. -/
def RoxInstance.fields : RoxInstance → List (String × Value)
  | RoxInstance.mk _ f => f

/-- Module name. -/
def RoxModule.name : RoxModule → String
  | RoxModule.mk n _ _ => n

/-- Module exports map. -/
def RoxModule.exports : RoxModule → List (String × Value)
  | RoxModule.mk _ e _ => e

/-- Module initialisation flag. -/
def RoxModule.is_initialized : RoxModule → Bool
  | RoxModule.mk _ _ b => b

/-- `RoxModule::new`. -/
def RoxModule.new (name : String) : RoxModule := RoxModule.mk name [] false

/-- Runtime errors and control-flow signals (`RuntimeError` in
evaluate/error.rs). -/
inductive RuntimeError where
  | Generic (msg : String)
  | Catchable (v : Value)
  | UndefinedVariable (name : String)
  | TypeError (msg : String)
  | IndexError (msg : String)
  | ArgumentError (msg : String)
  | DivisionByZero
  | Return (v : Value)
  | Print (s : String)
  | Break
  | Continue

/-- `Value::type_name`. -/
def Value.type_name : Value → Str
  | Value.Number _ => "Number"
  | Value.String _ => "String"
  | Value.Boolean _ => "Boolean"
  | Value.None => "None"
  | Value.Nil => "Nil"
  | Value.Function _ _ _ _ => "Function"
  | Value.Class _ => "Class"
  | Value.Instance _ => "Instance"
  | Value.List _ => "List"
  | Value.Dict _ => "Dict"
  | Value.Tuple _ => "Tuple"
  | Value.Print _ => "Print"
  | Value.Module _ => "Module"
  | Value.NativeFunction _ _ _ => "NativeFunction"
  | Value.BoundNativeMethod _ _ => "BoundNativeMethod"

/-- `Value::is_truthy`. -/
def Value.is_truthy : Value → Bool
  | Value.Nil => false
  | Value.Boolean b => b
  | Value.String s => ¬ s.isEmpty
  | Value.Number n => n ≠ 0
  | _ => true

/-- An environment (`Environment` in environment.rs): the local bindings and
an optional enclosing environment (a heap index). -/
structure EnvData where
  values : List (String × Value)
  enclosing : Option Nat

/-- `Environment::new`. -/
def EnvData.new : EnvData := ⟨[], Option.none⟩

/-- `Environment::with_enclosing`. -/
def EnvData.with_enclosing (enclosing : Nat) : EnvData := ⟨[], Option.some enclosing⟩

/-- The interpreter state (`Interpreter` in interpreter.rs) together with the
heaps that realise the `Rc<RefCell<..>>` cells and the ambient process
facts the Rust code reads from the OS (file system, working directory,
clock, stdin) and writes to it (stdout). -/
structure Interp where
  /-- Environment heap (every `Rc<RefCell<Environment>>` cell). -/
  envs : List EnvData
  /-- List heap (every `Rc<RefCell<Vec<Value>>>` cell). -/
  lists : List (List Value)
  /-- Dict heap (every `Rc<RefCell<HashMap<String, Value>>>` cell). -/
  dicts : List (List (String × Value))
  /-- Class heap (every `Rc<RefCell<RoxClass>>` cell). -/
  classes : List RoxClass
  /-- Instance heap (every `Rc<RefCell<RoxInstance>>` cell). -/
  instancesH : List RoxInstance
  /-- Module heap (every `Rc<RefCell<RoxModule>>` cell). -/
  modulesH : List RoxModule
  /-- `Interpreter::environment`: the current environment (heap index). -/
  environment : Nat
  /-- `Interpreter::globals`. -/
  globals : Nat
  /-- `Interpreter::locals`: the resolver side table `ExprId → depth`. -/
  locals : List (Nat × Nat)
  /-- `Interpreter::modules`: the module cache, resolved path → value. -/
  modules : List (String × Value)
  /-- `Interpreter::path_stack` (top of stack at the head). -/
  path_stack : List String
  /-- `Interpreter::exports_stack` (top of stack at the head). -/
  exports_stack : List (List String)
  /-- The file system visible to `fs::read_to_string`/`canonicalize`:
  path → contents.  Read-only input of a run. -/
  fs : List (String × String)
  /-- The process working directory (`std::env::current_dir`). -/
  cwd : String
  /-- Wall clock, for the `clock` native. -/
  now : Q
  /-- Remaining stdin lines, for the `input` native. -/
  stdin : List String
  /-- Collected stdout lines (`println!` in `Stmt::Print`). -/
  output : List String

/-- Evaluator computations. -/
abbrev EvalM (α : Type) := StM Interp RuntimeError α

/-- Allocate a fresh environment cell (`Rc::new(RefCell::new(env))`). -/
def allocEnv (e : EnvData) (st : Interp) : Nat × Interp :=
  (st.envs.length, { st with envs := st.envs ++ [e] })

/-- Allocate a fresh list cell. -/
def allocList (xs : List Value) (st : Interp) : Nat × Interp :=
  (st.lists.length, { st with lists := st.lists ++ [xs] })

/-- Allocate a fresh dict cell. -/
def allocDict (xs : List (String × Value)) (st : Interp) : Nat × Interp :=
  (st.dicts.length, { st with dicts := st.dicts ++ [xs] })

/-- Allocate a fresh class cell. -/
def allocClass (c : RoxClass) (st : Interp) : Nat × Interp :=
  (st.classes.length, { st with classes := st.classes ++ [c] })

/-- Allocate a fresh instance cell. -/
def allocInstance (i : RoxInstance) (st : Interp) : Nat × Interp :=
  (st.instancesH.length, { st with instancesH := st.instancesH ++ [i] })

/-- Allocate a fresh module cell. -/
def allocModule (m : RoxModule) (st : Interp) : Nat × Interp :=
  (st.modulesH.length, { st with modulesH := st.modulesH ++ [m] })

namespace Environment

/-- `Environment::define` on the heap cell `r`.  Heap indices are valid by
construction at every call site. -/
def define (st : Interp) (r : Nat) (name : String) (value : Value) : Interp :=
  match st.envs.get? r with
  | Option.none => st
  | Option.some env =>
    { st with envs := st.envs.set r { env with values := mapInsert env.values name value } }

/-- `Environment::get`: dynamic lookup along the enclosing chain (fuelled;
the chain is finite in every reachable state). -/
def get : Nat → Interp → Nat → String → RRes RuntimeError (Option Value)
  | 0, _, _, _ => RRes.fuel
  | n + 1, st, r, name =>
    match st.envs.get? r with
    | Option.none => RRes.panicked "invalid environment reference"
    | Option.some env =>
      match mapGet env.values name with
      | Option.some v => RRes.ok (Option.some v)
      | Option.none =>
        match env.enclosing with
        | Option.some parent => get n st parent name
        | Option.none => RRes.ok Option.none

/-- `Environment::assign`: dynamic assignment along the enclosing chain;
returns whether an existing binding was updated. -/
def assign : Nat → Interp → Nat → String → Value → RRes RuntimeError Bool × Interp
  | 0, st, _, _, _ => (RRes.fuel, st)
  | n + 1, st, r, name, value =>
    match st.envs.get? r with
    | Option.none => (RRes.panicked "invalid environment reference", st)
    | Option.some env =>
      if mapContains env.values name then
        (RRes.ok true,
         { st with envs := st.envs.set r { env with values := mapInsert env.values name value } })
      else
        match env.enclosing with
        | Option.some parent => assign n st parent name value
        | Option.none => (RRes.ok false, st)

/-- `Environment::get_at`: depth-indexed lookup.  A missing enclosing link at
non-zero distance is the source's `unwrap()` panic. -/
def get_at (st : Interp) : Nat → Nat → String → RRes RuntimeError (Option Value)
  | r, 0, name =>
    match st.envs.get? r with
    | Option.none => RRes.panicked "invalid environment reference"
    | Option.some env => RRes.ok (mapGet env.values name)
  | r, distance + 1, name =>
    match st.envs.get? r with
    | Option.none => RRes.panicked "invalid environment reference"
    | Option.some env =>
      match env.enclosing with
      | Option.some parent => get_at st parent distance name
      | Option.none => RRes.panicked "called Option::unwrap() on a None value"

/-- `Environment::assign_at`: depth-indexed assignment. -/
def assign_at (st : Interp) : Nat → Nat → String → Value → RRes RuntimeError Unit × Interp
  | r, 0, name, value =>
    match st.envs.get? r with
    | Option.none => (RRes.panicked "invalid environment reference", st)
    | Option.some env =>
      (RRes.ok (),
       { st with envs := st.envs.set r { env with values := mapInsert env.values name value } })
  | r, distance + 1, name, value =>
    match st.envs.get? r with
    | Option.none => (RRes.panicked "invalid environment reference", st)
    | Option.some env =>
      match env.enclosing with
      | Option.some parent => assign_at st parent distance name value
      | Option.none => (RRes.panicked "called Option::unwrap() on a None value", st)

end Environment

/-- Display form of a value (`impl fmt::Display for Value`), fuelled because
lists/dicts print their (shared, possibly nested) contents. -/
def valueToString : Nat → Interp → Value → String
  | 0, _, _ => ""
  | n + 1, st, v =>
    match v with
    | Value.Number q => numberDisplay q
    | Value.String s => s
    | Value.Boolean b => if b then "true" else "false"
    | Value.None => "none"
    | Value.Nil => "nil"
    | Value.Function name _ _ _ => "<fn " ++ name ++ ">"
    | Value.Class r =>
      "<class " ++ (match st.classes.get? r with
        | Option.some c => c.name
        | Option.none => "?") ++ ">"
    | Value.Instance r =>
      "<instance " ++ (match st.instancesH.get? r with
        | Option.some i =>
          (match st.classes.get? i.cls with
           | Option.some c => c.name
           | Option.none => "?")
        | Option.none => "?") ++ ">"
    | Value.NativeFunction name _ _ => "<native fn " ++ name ++ ">"
    | Value.BoundNativeMethod _ method => valueToString n st method
    | Value.List r =>
      "[" ++ String.intercalate ", "
        ((st.lists.getD r []).map (fun x => valueToString n st x)) ++ "]"
    | Value.Tuple elems =>
      "(" ++ String.intercalate ", " (elems.map (fun x => valueToString n st x)) ++ ")"
    | Value.Dict r =>
      "\x7b" ++ String.intercalate ", "
        ((st.dicts.getD r []).map (fun kv => kv.1 ++ ": " ++ valueToString n st kv.2)) ++ "\x7d"
    | Value.Print s => s
    | Value.Module r =>
      "<module '" ++ (match st.modulesH.get? r with
        | Option.some m => m.name
        | Option.none => "?") ++ "'>"

/-- Display form of a runtime error (`impl fmt::Display for RuntimeError`). -/
def runtimeErrorToString (fuel : Nat) (st : Interp) : RuntimeError → String
  | RuntimeError.Generic msg => msg
  | RuntimeError.Catchable v => valueToString fuel st v
  | RuntimeError.UndefinedVariable name => "Undefined variable '" ++ name ++ "'."
  | RuntimeError.TypeError msg => "Type error: " ++ msg
  | RuntimeError.IndexError msg => "Index error: " ++ msg
  | RuntimeError.ArgumentError msg => "Argument error: " ++ msg
  | RuntimeError.DivisionByZero => "Division by zero."
  | RuntimeError.Return _ => "Cannot 'return' from top-level code."
  | RuntimeError.Break => "Cannot use 'break' outside of a loop."
  | RuntimeError.Continue => "Cannot use 'continue' outside of a loop."
  | RuntimeError.Print s => s

mutual

/-- Structural equality of values (`#[derive(PartialEq)] for Value`):
`Rc<RefCell<..>>` fields compare through their contents, so container
references dereference into the heaps; fuelled because environment chains
reached through function closures can be cyclic. -/
def valueEq : Nat → Interp → Value → Value → Bool
  | 0, _, _, _ => false
  | n + 1, st, a, b =>
    match a, b with
    | Value.Number x, Value.Number y => x == y
    | Value.String x, Value.String y => x == y
    | Value.Boolean x, Value.Boolean y => x == y
    | Value.Nil, Value.Nil => true
    | Value.None, Value.None => true
    | Value.Function n1 a1 b1 c1, Value.Function n2 a2 b2 c2 =>
      n1 == n2 && a1 == a2 && b1 == b2 && envEq n st c1 c2
    | Value.Class r1, Value.Class r2 => classEq n st r1 r2
    | Value.Instance r1, Value.Instance r2 =>
      (match st.instancesH.get? r1, st.instancesH.get? r2 with
       | Option.some i1, Option.some i2 =>
         classEq n st i1.cls i2.cls && valueMapEq n st i1.fields i2.fields
       | _, _ => false)
    | Value.List r1, Value.List r2 =>
      valueListEq n st (st.lists.getD r1 []) (st.lists.getD r2 [])
    | Value.Tuple t1, Value.Tuple t2 => valueListEq n st t1 t2
    | Value.Dict r1, Value.Dict r2 =>
      valueMapEq n st (st.dicts.getD r1 []) (st.dicts.getD r2 [])
    | Value.Print s1, Value.Print s2 => s1 == s2
    | Value.NativeFunction n1 a1 f1, Value.NativeFunction n2 a2 f2 =>
      n1 == n2 && a1 == a2 && f1 == f2
    | Value.BoundNativeMethod r1 m1, Value.BoundNativeMethod r2 m2 =>
      valueEq n st r1 r2 && valueEq n st m1 m2
    | Value.Module r1, Value.Module r2 =>
      (match st.modulesH.get? r1, st.modulesH.get? r2 with
       | Option.some m1, Option.some m2 =>
         m1.name == m2.name && valueMapEq n st m1.exports m2.exports &&
           m1.is_initialized == m2.is_initialized
       | _, _ => false)
    | _, _ => false

/-- Elementwise equality of value sequences (`Vec<Value>` `PartialEq`). -/
def valueListEq : Nat → Interp → List Value → List Value → Bool
  | 0, _, _, _ => false
  | _ + 1, _, [], [] => true
  | n + 1, st, x :: xs, y :: ys => valueEq n st x y && valueListEq n st xs ys
  | _ + 1, _, _, _ => false

/-- Key-set-insensitive map equality (`HashMap` `PartialEq`: same keys, equal
values). -/
def valueMapEq (n : Nat) (st : Interp) (a b : List (String × Value)) : Bool :=
  match n with
  | 0 => false
  | n + 1 =>
    a.all (fun kv =>
      match mapGet b kv.1 with
      | Option.some w => valueEq n st kv.2 w
      | Option.none => false) &&
    b.all (fun kv =>
      match mapGet a kv.1 with
      | Option.some w => valueEq n st kv.2 w
      | Option.none => false)

/-- Deep equality of environments (`Environment` derives `PartialEq`). -/
def envEq (n : Nat) (st : Interp) (r1 r2 : Nat) : Bool :=
  match n with
  | 0 => false
  | n + 1 =>
    match st.envs.get? r1, st.envs.get? r2 with
    | Option.some e1, Option.some e2 =>
      valueMapEq n st e1.values e2.values &&
      (match e1.enclosing, e2.enclosing with
       | Option.none, Option.none => true
       | Option.some p1, Option.some p2 => envEq n st p1 p2
       | _, _ => false)
    | _, _ => false

/-- Deep equality of classes (`RoxClass` derives `PartialEq`). -/
def classEq (n : Nat) (st : Interp) (r1 r2 : Nat) : Bool :=
  match n with
  | 0 => false
  | n + 1 =>
    match st.classes.get? r1, st.classes.get? r2 with
    | Option.some c1, Option.some c2 =>
      c1.name == c2.name && valueMapEq n st c1.methods c2.methods &&
      (match c1.superclass, c2.superclass with
       | Option.none, Option.none => true
       | Option.some s1, Option.some s2 => classEq n st s1 s2
       | _, _ => false)
    | _, _ => false

end

/-- `RoxClass::find_method`: look in the class, then up the superclass
chain (fuelled on the chain length). -/
def find_method : Nat → Interp → Nat → String → RRes RuntimeError (Option Value)
  | 0, _, _, _ => RRes.fuel
  | n + 1, st, r, name =>
    match st.classes.get? r with
    | Option.none => RRes.panicked "invalid class reference"
    | Option.some c =>
      match mapGet c.methods name with
      | Option.some m => RRes.ok (Option.some m)
      | Option.none =>
        match c.superclass with
        | Option.some s => find_method n st s name
        | Option.none => RRes.ok Option.none

/-- `Value::bind`: binding a function to an instance allocates a one-entry
environment holding `this` on top of the function's closure.  Any other
receiver is the source's `panic!("Only functions can be bound")`. -/
def Value.bind (st : Interp) (v : Value) (instance_ : Value) :
    RRes RuntimeError Value × Interp :=
  match v with
  | Value.Function name args body closure =>
    let (envRef, st) := allocEnv (EnvData.with_enclosing closure) st
    let st := Environment.define st envRef "this" instance_
    (RRes.ok (Value.Function name args body envRef), st)
  | _ => (RRes.panicked "Only functions can be bound", st)

/-- `std_lib::string::lookup` (string/mod.rs). -/
def stringLookup (name : String) : Option Value :=
  match name with
  | "len" => Option.some (Value.NativeFunction "len" 0 NativeFn.stringLen)
  | "split" => Option.some (Value.NativeFunction "split" 1 NativeFn.stringSplit)
  | "substring" => Option.some (Value.NativeFunction "substring" 2 NativeFn.stringSubstring)
  | "replace" => Option.some (Value.NativeFunction "replace" 2 NativeFn.stringReplace)
  | _ => Option.none

/-- `std_lib::list::lookup` (list/mod.rs). -/
def listLookup (name : String) : Option Value :=
  match name with
  | "push" => Option.some (Value.NativeFunction "push" 1 NativeFn.listPush)
  | "pop" => Option.some (Value.NativeFunction "pop" 0 NativeFn.listPop)
  | "len" => Option.some (Value.NativeFunction "len" 0 NativeFn.listLen)
  | "insert" => Option.some (Value.NativeFunction "insert" 2 NativeFn.listInsert)
  | "join" => Option.some (Value.NativeFunction "join" 1 NativeFn.listJoin)
  | "reverse" => Option.some (Value.NativeFunction "reverse" 0 NativeFn.listReverse)
  | _ => Option.none

/-- `std_lib::lookup_method` (std_lib/mod.rs): only strings and lists have
native method tables (the dict arm is commented out in the source). -/
def lookup_method (target : Value) (name : String) : Option Value :=
  match target with
  | Value.String _ => stringLookup name
  | Value.List _ => listLookup name
  | _ => Option.none

/-- `Interpreter::check_number_operands`. -/
def check_number_operands (left right : Value)
    (f : Q → Q → RRes RuntimeError Value) : RRes RuntimeError Value :=
  match left, right with
  | Value.Number n1, Value.Number n2 => f n1 n2
  | _, _ => RRes.err (RuntimeError.TypeError "Operands must be numbers.")

/-- `Interpreter::add_values`.  The list and dict arms mutate the left
operand's cell in place and return the left reference; when both operands
are the same cell, `borrow_mut` followed by `borrow` on that cell is the
`RefCell` re-borrow panic. -/
def add_values (st : Interp) (left right : Value) : RRes RuntimeError Value × Interp :=
  match left, right with
  | Value.Number n1, Value.Number n2 => (RRes.ok (Value.Number (n1 + n2)), st)
  | Value.String s1, Value.String s2 => (RRes.ok (Value.String (s1 ++ s2)), st)
  | Value.List r1, Value.List r2 =>
    if r1 = r2 then (RRes.panicked "already mutably borrowed: BorrowError", st)
    else
      let xs := st.lists.getD r1 []
      let ys := st.lists.getD r2 []
      (RRes.ok (Value.List r1), { st with lists := st.lists.set r1 (xs ++ ys) })
  | Value.Tuple t1, Value.Tuple t2 => (RRes.ok (Value.Tuple (t1 ++ t2)), st)
  | Value.Dict r1, Value.Dict r2 =>
    if r1 = r2 then (RRes.panicked "already mutably borrowed: BorrowError", st)
    else
      let xs := st.dicts.getD r1 []
      let ys := st.dicts.getD r2 []
      (RRes.ok (Value.Dict r1),
       { st with dicts := st.dicts.set r1 (ys.foldl (fun acc kv => mapInsert acc kv.1 kv.2) xs) })
  | l, r =>
    (RRes.err (RuntimeError.TypeError
      ("Binary operator '+' requires two numbers or two strings. Got " ++
       Value.type_name l ++ " and " ++ Value.type_name r ++ ".")), st)

/-! ## Resolver (src/resolver/resolver.rs, resolve.rs)

The resolver threads its scope stack plus the interpreter's `locals` side
table (which it writes through `Interpreter::resolve`).  The scope stack is
a list with the innermost scope at the head, so Rust's
`scopes.iter().rev().enumerate()` is plain head-first enumeration here. -/

/-- `FunctionType` (resolver.rs). -/
inductive FunctionType where
  | None | Function | Method | Initializer
  deriving Repr, DecidableEq

/-- `LoopType` (resolver.rs). -/
inductive LoopType where
  | None | Loop
  deriving Repr, DecidableEq

/-- `ClassType` (resolver.rs). -/
inductive ClassType where
  | None | Class | Subclass
  deriving Repr, DecidableEq

/-- Resolver state: the fields of `struct Resolver` with the interpreter
narrowed to the one field the resolver touches, its `locals` table. -/
structure ResolverSt where
  scopes : List (List (String × Bool))
  current_function : FunctionType
  current_class : ClassType
  current_loop : LoopType
  locals : List (Nat × Nat)
  deriving Repr

/-- Resolver computations; errors are strings as in the source. -/
abbrev RM (α : Type) := StM ResolverSt String α

namespace Resolver

/-- `Resolver::new` over an interpreter's current side table. -/
def new (locals : List (Nat × Nat)) : ResolverSt :=
  ⟨[], FunctionType.None, ClassType.None, LoopType.None, locals⟩

/-- `Resolver::begin_scope`. -/
def begin_scope : RM Unit :=
  modifyS (fun st => { st with scopes := [] :: st.scopes })

/-- `Resolver::end_scope`. -/
def end_scope : RM Unit :=
  modifyS (fun st => { st with scopes := st.scopes.tail })

/-- `Resolver::declare`. -/
def declare (name : Token) : RM Unit := fun st =>
  match st.scopes with
  | [] => (RRes.ok (), st)
  | scope :: rest =>
    if mapContains scope name.lexeme then
      (RRes.err ("[line " ++ toString name.line ++
        "] Already a variable with this name in this scope."), st)
    else
      (RRes.ok (), { st with scopes := mapInsert scope name.lexeme false :: rest })

/-- `Resolver::define`. -/
def define (name : Token) : RM Unit := fun st =>
  match st.scopes with
  | [] => (RRes.ok (), st)
  | scope :: rest =>
    (RRes.ok (), { st with scopes := mapInsert scope name.lexeme true :: rest })

/-- The scan of `resolve_local`: innermost-first search for the name,
returning the hop count. -/
def findDepth : List (List (String × Bool)) → String → Nat → Option Nat
  | [], _, _ => Option.none
  | scope :: rest, name, i =>
    if mapContains scope name then Option.some i else findDepth rest name (i + 1)

/-- `Resolver::resolve_local`: record `(ExprId, depth)` in the interpreter
side table (`Interpreter::resolve`) when a scope declares the name; global
references are left unresolved. -/
def resolve_local (id : ExprId) (name : Token) : RM Unit := fun st =>
  match findDepth st.scopes name.lexeme 0 with
  | Option.some i => (RRes.ok (), { st with locals := mapInsert st.locals id i })
  | Option.none => (RRes.ok (), st)

mutual

/-- `Resolver::resolve_stmts`. -/
def resolve_stmts : Nat → List Stmt → RM Unit
  | 0, _ => fuelS
  | _ + 1, [] => pure ()
  | n + 1, s :: rest => do
    resolve_stmt n s
    resolve_stmts n rest

/-- `Resolver::resolve_stmt`. -/
def resolve_stmt : Nat → Stmt → RM Unit
  | 0, _ => fuelS
  | n + 1, stmt =>
    match stmt with
    | Stmt.Block body => do
      begin_scope
      resolve_stmts n body
      end_scope
    | Stmt.VarDecl name initializer => do
      declare name
      match initializer with
      | Option.some init => do
        resolve_expr n init
        define name
      | Option.none => define name
    | Stmt.Function name params body => do
      declare name
      define name
      resolve_function n params body FunctionType.Function
    | Stmt.Class name superclass methods => do
      let enclosing_class ← (fun st => (RRes.ok st.current_class, st))
      modifyS (fun st => { st with current_class := ClassType.Class })
      declare name
      define name
      match superclass with
      | Option.some super_expr => do
        modifyS (fun st => { st with current_class := ClassType.Subclass })
        (match super_expr with
         | Expr.Variable _ super_name =>
           if name.lexeme = super_name.lexeme then
             throwS "A class can't inherit from itself."
           else pure ()
         | _ => pure ())
        resolve_expr n super_expr
      | Option.none => pure ()
      (if superclass.isSome then do
        begin_scope
        modifyS (fun st =>
          match st.scopes with
          | scope :: rest => { st with scopes := mapInsert scope "super" true :: rest }
          | [] => st)
      else pure ())
      begin_scope
      modifyS (fun st =>
        match st.scopes with
        | scope :: rest => { st with scopes := mapInsert scope "this" true :: rest }
        | [] => st)
      resolve_methods n methods
      end_scope
      (if superclass.isSome then end_scope else pure ())
      modifyS (fun st => { st with current_class := enclosing_class })
    | Stmt.Expression expr => resolve_expr n expr
    | Stmt.If condition then_branch else_branch => do
      resolve_expr n condition
      resolve_stmt n then_branch
      match else_branch with
      | Option.some e => resolve_stmt n e
      | Option.none => pure ()
    | Stmt.While condition body => do
      resolve_expr n condition
      let enclosing_loop ← (fun st => (RRes.ok st.current_loop, st))
      modifyS (fun st => { st with current_loop := LoopType.Loop })
      resolve_stmt n body
      modifyS (fun st => { st with current_loop := enclosing_loop })
    | Stmt.For initializer condition increment body => do
      begin_scope
      (match initializer with
       | Option.some init => resolve_stmt n init
       | Option.none => pure ())
      (match condition with
       | Option.some cond => resolve_expr n cond
       | Option.none => pure ())
      (match increment with
       | Option.some incr => resolve_expr n incr
       | Option.none => pure ())
      let enclosing_loop ← (fun st => (RRes.ok st.current_loop, st))
      modifyS (fun st => { st with current_loop := LoopType.Loop })
      resolve_stmt n body
      modifyS (fun st => { st with current_loop := enclosing_loop })
      end_scope
    | Stmt.Print expr => resolve_expr n expr
    | Stmt.Return keyword value => do
      let cf ← (fun st => (RRes.ok st.current_function, st))
      if cf = FunctionType.None then
        throwS ("[line " ++ toString keyword.line ++ "] Can't return from top-level code.")
      else
        match value with
        | Option.some val =>
          if cf = FunctionType.Initializer then
            throwS ("[line " ++ toString keyword.line ++
              "] Can't return a value from an initializer.")
          else resolve_expr n val
        | Option.none => pure ()
    | Stmt.Break => do
      let cl ← (fun st => (RRes.ok st.current_loop, st))
      if cl = LoopType.None then throwS "Can't use 'break' outside of a loop."
      else pure ()
    | Stmt.Continue => do
      let cl ← (fun st => (RRes.ok st.current_loop, st))
      if cl = LoopType.None then throwS "Can't use 'continue' outside of a loop."
      else pure ()
    | Stmt.Empty => pure ()
    | Stmt.Try try_branch _ catch_branch => do
      -- Modelled from the spec: the resolve.rs in the tree predates
      -- try/catch/throw/export.  §4.3's scope protocol resolves both
      -- branches (the catch variable is defined dynamically at run time).
      resolve_stmt n try_branch
      resolve_stmt n catch_branch
    | Stmt.Throw expr =>
      -- Modelled from the spec (see Stmt.Try above).
      resolve_expr n expr
    | Stmt.Export inner =>
      -- Modelled from the spec (see Stmt.Try above): resolve the wrapped
      -- declaration.
      resolve_stmt n inner

/-- The method loop inside the `Stmt::Class` arm. -/
def resolve_methods : Nat → List Stmt → RM Unit
  | 0, _ => fuelS
  | _ + 1, [] => pure ()
  | n + 1, method :: rest => do
    (match method with
     | Stmt.Function method_name params body =>
       let declaration :=
         if method_name.lexeme = "init" then FunctionType.Initializer
         else FunctionType.Method
       resolve_function n params body declaration
     | _ => pure ())
    resolve_methods n rest

/-- `Resolver::resolve_expr`. -/
def resolve_expr : Nat → Expr → RM Unit
  | 0, _ => fuelS
  | n + 1, expr =>
    match expr with
    | Expr.Variable id name => fun st =>
      match st.scopes with
      | scope :: _ =>
        (match mapGet scope name.lexeme with
         | Option.some false =>
           (RRes.err ("[line " ++ toString name.line ++
             "] Can't read local variable '" ++ name.lexeme ++
             "' in its own initializer."), st)
         | _ => resolve_local id name st)
      | [] => resolve_local id name st
    | Expr.Assign id name e => do
      resolve_expr n e
      resolve_local id name
    | Expr.AssignOp id name _ e => do
      resolve_expr n e
      resolve_local id name
    | Expr.Binary left _ right => do
      resolve_expr n left
      resolve_expr n right
    | Expr.Logical left _ right => do
      resolve_expr n left
      resolve_expr n right
    | Expr.Unary _ e => resolve_expr n e
    | Expr.Grouping e => resolve_expr n e
    | Expr.Call _ callee args => do
      resolve_expr n callee
      resolve_exprs n args
    | Expr.Super id keyword _ => do
      let cc ← (fun st => (RRes.ok st.current_class, st))
      if cc = ClassType.None then
        throwS ("[line " ++ toString keyword.line ++ "] Can't use 'super' outside of a class.")
      else if cc ≠ ClassType.Subclass then
        throwS ("[line " ++ toString keyword.line ++
          "] Can't use 'super' in a class with no superclass.")
      else resolve_local id keyword
    | Expr.List elements => resolve_exprs n elements
    | Expr.Tuple elements => resolve_exprs n elements
    | Expr.Dict elements => resolve_pairs n elements
    | Expr.Number _ => pure ()
    | Expr.String _ => pure ()
    | Expr.Boolean _ => pure ()
    | Expr.Nil => pure ()
    | Expr.Get object _ => resolve_expr n object
    | Expr.GetIndex _ object index _ => do
      resolve_expr n object
      resolve_expr n index
    | Expr.SetIndex _ object index _ value => do
      resolve_expr n object
      resolve_expr n index
      resolve_expr n value
    | Expr.Set object _ value => do
      resolve_expr n value
      resolve_expr n object
    | Expr.This id keyword => do
      let cc ← (fun st => (RRes.ok st.current_class, st))
      if cc = ClassType.None then
        throwS ("[line " ++ toString keyword.line ++ "] Can't use 'this' outside of a class.")
      else resolve_local id keyword
    | Expr.Lambda _ params body =>
      -- Modelled from the spec: resolve.rs predates lambdas; §4.3's
      -- function-body protocol applies (open a scope, bind the parameters,
      -- resolve the body as a function).
      resolve_function n params body FunctionType.Function

/-- Element loop over expressions. -/
def resolve_exprs : Nat → List Expr → RM Unit
  | 0, _ => fuelS
  | _ + 1, [] => pure ()
  | n + 1, e :: rest => do
    resolve_expr n e
    resolve_exprs n rest

/-- Entry loop over dict literal entries. -/
def resolve_pairs : Nat → List (Expr × Expr) → RM Unit
  | 0, _ => fuelS
  | _ + 1, [] => pure ()
  | n + 1, kv :: rest => do
    resolve_expr n kv.1
    resolve_expr n kv.2
    resolve_pairs n rest

/-- The parameter loop of `resolve_function`. -/
def resolve_params : Nat → List Token → RM Unit
  | 0, _ => fuelS
  | _ + 1, [] => pure ()
  | n + 1, p :: rest => do
    declare p
    define p
    resolve_params n rest

/-- `Resolver::resolve_function`. -/
def resolve_function : Nat → List Token → List Stmt → FunctionType → RM Unit
  | 0, _, _, _ => fuelS
  | n + 1, params, body, f_type => do
    let enclosing_func ← (fun st => (RRes.ok st.current_function, st))
    modifyS (fun st => { st with current_function := f_type })
    begin_scope
    resolve_params n params
    resolve_stmts n body
    end_scope
    modifyS (fun st => { st with current_function := enclosing_func })

end

end Resolver

/-! ## Native-function support (src/std_lib/) -/

/-- `utils::ensure_string`. -/
def ensure_string (val : Value) : RRes RuntimeError Str :=
  match val with
  | Value.String s => RRes.ok s
  | _ => RRes.err (RuntimeError.TypeError "Expected string.")

/-- `utils::ensure_list` (the list heap index stands for the
`&RefCell<Vec<Value>>`). -/
def ensure_list (val : Value) : RRes RuntimeError Nat :=
  match val with
  | Value.List r => RRes.ok r
  | _ => RRes.err (RuntimeError.TypeError "Expected list.")

/-- Rust `str::trim_end`. -/
def trimEnd (s : String) : String :=
  String.mk ((s.data.reverse.dropWhile Char.isWhitespace).reverse)

/-- Char index of a byte offset in a UTF-8 string: `some i` when the offset
lands on the boundary before the `i`-th scalar, `none` when it falls inside
a multi-byte scalar or past the end. -/
def charIndexOfByte : List Char → Nat → Option Nat
  | _, 0 => Option.some 0
  | [], _ + 1 => Option.none
  | c :: rest, b + 1 =>
    if b + 1 < c.utf8Size then Option.none
    else (charIndexOfByte rest (b + 1 - c.utf8Size)).map (fun i => i + 1)

/-- Rust byte slicing `&s[start..end]`: `none` models the slice panic
(reversed range, out of range, or not a char boundary). -/
def byteSlice (s : String) (start stop : Nat) : Option String :=
  if stop < start then Option.none
  else
    match charIndexOfByte s.data start, charIndexOfByte s.data stop with
    | Option.some i, Option.some j => Option.some (String.mk ((s.data.take j).drop i))
    | _, _ => Option.none

/-- `io::file_system::create_module` (fs module with native exports). -/
def fs_create_module (st : Interp) : Value × Interp :=
  let exports : List (String × Value) :=
    [("readFile", Value.NativeFunction "readFile" 1 NativeFn.fsReadFile),
     ("writeFile", Value.NativeFunction "writeFile" 2 NativeFn.fsWriteFile),
     ("exists", Value.NativeFunction "exists" 1 NativeFn.fsExists)]
  let (r, st) := allocModule (RoxModule.mk "fs" exports true) st
  (Value.Module r, st)

/-- The `f64` value of π (exactly `884279719003555 / 2^48`). -/
def piF64 : Q := (884279719003555 : Q) / (281474976710656 : Q)

/-- The `f64` value of e (exactly `6121026514868073 / 2^51`). -/
def eF64 : Q := (6121026514868073 : Q) / (2251799813685248 : Q)

/-- Modelled from the spec: `math::create_module` is absent from the tree
(only its method files remain); §6 lists the module's exports.  The method
bodies are spec-declared out-of-scope collaborators (§1), so every `mathFn`
native returns an unspecified number (0) — no claim calls them. -/
def math_create_module (st : Interp) : Value × Interp :=
  let native := fun (name : String) (arity : Nat) =>
    (name, Value.NativeFunction name arity (NativeFn.mathFn name))
  let exports : List (String × Value) :=
    [("PI", Value.Number piF64), ("E", Value.Number eF64),
     native "random" 0,
     native "abs" 1, native "ceil" 1, native "floor" 1, native "round" 1,
     native "sqrt" 1, native "sin" 1, native "cos" 1, native "tan" 1,
     native "log" 1, native "log10" 1, native "exp" 1,
     native "pow" 2, native "min" 2, native "max" 2,
     native "rand_int" 2, native "rand_range" 2,
     native "is_int" 1, native "to_int" 1]
  let (r, st) := allocModule (RoxModule.mk "math" exports true) st
  (Value.Module r, st)

/-- `Interpreter::init_globals`: install `fs`, `math`, `clock`, `input` and
`import` into the given environment. -/
def init_globals (st : Interp) (envRef : Nat) : Interp :=
  let (fs_module, st) := fs_create_module st
  let (math_module, st) := math_create_module st
  let st := Environment.define st envRef "fs" fs_module
  let st := Environment.define st envRef "math" math_module
  let st := Environment.define st envRef "clock"
    (Value.NativeFunction "clock" 0 NativeFn.clock)
  let st := Environment.define st envRef "input"
    (Value.NativeFunction "input" 1 NativeFn.input)
  let st := Environment.define st envRef "import"
    (Value.NativeFunction "import" 1 NativeFn.importNative)
  st

/-! ## Paths and the module loader's file access (src/evaluate/interpreter.rs) -/

/-- `Path::join`, on the plain-string path model: absolute paths replace the
anchor, relative ones append. -/
def pathJoin (anchor path : String) : String :=
  match path.toList with
  | '/' :: _ => path
  | _ => anchor ++ "/" ++ path

/-- `Path::parent` on the plain-string model: strip the final `/`-separated
component. -/
def pathParent (p : String) : Option String :=
  match (p.toList.reverse.dropWhile (fun c => c ≠ '/')) with
  | [] => Option.none
  | _ :: rest => Option.some (String.mk rest.reverse)

/-- `Interpreter::resolve_path`: anchor at the top of the path stack (or the
working directory), join, then `fs::canonicalize`.  Canonicalisation is
modelled as an existence check on the state's file-system map — path
normalisation and symlinks are outside the model. -/
def resolve_path (st : Interp) (import_path : String) : RRes RuntimeError String :=
  let anchor :=
    match st.path_stack.head? with
    | Option.some current_dir => current_dir
    | Option.none => st.cwd
  let joined_path := pathJoin anchor import_path
  if mapContains st.fs joined_path then RRes.ok joined_path
  else
    RRes.err (RuntimeError.Generic
      ("Cannot find module '" ++ joined_path ++ "': No such file or directory (os error 2)"))

/-- Display of `tokenizer::Error` (error.rs): the per-error write is
commented out in the source, so only the separating newlines remain. -/
def scannerErrorDisplay (e : ScannerError) : String :=
  String.intercalate "\n" (e.errors.map (fun _ => ""))

/-- The per-method-table build in the `Stmt::Class` arm: each `Stmt::Function`
method becomes a function value closing over the given environment. -/
def buildMethodMap (envRef : Nat) : List Stmt → List (String × Value) → List (String × Value)
  | [], acc => acc
  | m :: rest, acc =>
    match m with
    | Stmt.Function m_name params body =>
      buildMethodMap envRef rest
        (mapInsert acc m_name.lexeme
          (Value.Function m_name.lexeme (params.map (fun t => t.lexeme)) body envRef))
    | _ => buildMethodMap envRef rest acc

/-- Bind a parameter list to argument values in an environment (the
`for (i, param_name) in param_names.iter().enumerate()` loops). -/
def defineParams (st : Interp) (envRef : Nat) (params : List String)
    (args : List Value) : Interp :=
  (params.zip args).foldl (fun st kv => Environment.define st envRef kv.1 kv.2) st

/-- Lift a pure result into a state computation. -/
def liftR (r : RRes ε α) : StM σ ε α := fun st => (r, st)

/-- Map over the `ok` payload of a result. -/
def RRes.map (r : RRes ε α) (f : α → β) : RRes ε β :=
  match r with
  | RRes.ok a => RRes.ok (f a)
  | RRes.err e => RRes.err e
  | RRes.panicked m => RRes.panicked m
  | RRes.fuel => RRes.fuel

/-- The index-read logic of `Expr::GetIndex` in `Interpreter::evaluate`
(lists, dicts, strings), on already-evaluated object and index values.
Mirrors the source arm for arm; it reads but never writes the state. -/
def evalGetIndex (n : Nat) (st : Interp) (obj idx : Value) : RRes RuntimeError Value :=
  match obj with
  | Value.List list_rc =>
    (match idx with
     | Value.Number q =>
       if ¬ ratIsInt q then
         RRes.err (RuntimeError.Generic "List index must be an integer.")
       else
         let i := f64AsUsize q
         let list := st.lists.getD list_rc []
         if list.length ≤ i then
           RRes.err (RuntimeError.Generic "List index out of bounds.")
         else RRes.ok (list.getD i Value.Nil)
     | _ => RRes.err (RuntimeError.Generic "List index must be a number."))
  | Value.Dict dict_rc =>
    let key := valueToString n st idx
    RRes.ok ((mapGet (st.dicts.getD dict_rc []) key).getD Value.Nil)
  | Value.String s =>
    (match idx with
     | Value.Number q =>
       let i := f64AsUsize q
       if s.utf8ByteSize ≤ i then
         RRes.err (RuntimeError.Generic "String index out of bounds.")
       else
         match s.data.get? i with
         | Option.some c => RRes.ok (Value.String (String.mk [c]))
         | Option.none => RRes.panicked "called Option::unwrap() on a None value"
     | _ => RRes.err (RuntimeError.Generic "String index must be a number."))
  | _ => RRes.err (RuntimeError.TypeError "Only lists and dicts support subscripting.")

/-- The index-write logic of `Expr::SetIndex` in `Interpreter::evaluate`, on
already-evaluated values; mirrors the source arm for arm. -/
def evalSetIndex (n : Nat) (st : Interp) (obj idx val : Value) :
    RRes RuntimeError Value × Interp :=
  match obj with
  | Value.List list_rc =>
    (match idx with
     | Value.Number q =>
       if ¬ ratIsInt q then
         (RRes.err (RuntimeError.Generic "Index must be integer."), st)
       else
         let i := f64AsUsize q
         let list := st.lists.getD list_rc []
         if list.length ≤ i then
           (RRes.err (RuntimeError.Generic "List index out of bounds."), st)
         else
           (RRes.ok val, { st with lists := st.lists.set list_rc (list.set i val) })
     | _ => (RRes.err (RuntimeError.Generic "List index must be a number."), st))
  | Value.Dict dict_rc =>
    let key := valueToString n st idx
    (RRes.ok val,
     { st with dicts := st.dicts.set dict_rc (mapInsert (st.dicts.getD dict_rc []) key val) })
  | _ =>
    (RRes.err (RuntimeError.TypeError "Only lists and dicts support subscript assignment."), st)

/-- `Interpreter::look_up_variable`: side-table hit goes through `get_at` at
the recorded depth from the current environment; a miss reads globals. -/
def look_up_variable (fuel : Nat) (name : Token) (expr_id : ExprId) : EvalM Value :=
  fun st =>
    match mapGet st.locals expr_id with
    | Option.some distance =>
      (match Environment.get_at st st.environment distance name.lexeme with
       | RRes.ok (Option.some v) => (RRes.ok v, st)
       | RRes.ok Option.none =>
         (RRes.err (RuntimeError.UndefinedVariable name.lexeme), st)
       | RRes.err e => (RRes.err e, st)
       | RRes.panicked m => (RRes.panicked m, st)
       | RRes.fuel => (RRes.fuel, st))
    | Option.none =>
      (match Environment.get fuel st st.globals name.lexeme with
       | RRes.ok (Option.some v) => (RRes.ok v, st)
       | RRes.ok Option.none =>
         (RRes.err (RuntimeError.UndefinedVariable name.lexeme), st)
       | RRes.err e => (RRes.err e, st)
       | RRes.panicked m => (RRes.panicked m, st)
       | RRes.fuel => (RRes.fuel, st))

mutual

/-- `Interpreter::execute`. -/
def execute : Nat → Stmt → EvalM Unit
  | 0, _ => fuelS
  | n + 1, stmt =>
    match stmt with
    | Stmt.Expression expr => do
      let _ ← evaluate n expr
      pure ()
    | Stmt.Print expr => do
      let value ← evaluate n expr
      modifyS (fun st => { st with output := st.output ++ [valueToString n st value] })
    | Stmt.VarDecl name initializer => do
      let value ←
        match initializer with
        | Option.some expr => evaluate n expr
        | Option.none => pure Value.Nil
      modifyS (fun st => Environment.define st st.environment name.lexeme value)
    | Stmt.Block body => fun st =>
      execute_block n body (EnvData.with_enclosing st.environment) st
    | Stmt.If condition then_branch else_branch => do
      let c ← evaluate n condition
      if Value.is_truthy c then execute n then_branch
      else
        match else_branch with
        | Option.some else_b => execute n else_b
        | Option.none => pure ()
    | Stmt.Try try_branch catch_var catch_branch => fun st =>
      (match execute n try_branch st with
       | (RRes.ok _, st) => (RRes.ok (), st)
       | (RRes.err e, st) =>
         (match e with
          | RuntimeError.Break => (RRes.err e, st)
          | RuntimeError.Continue => (RRes.err e, st)
          | RuntimeError.Return v => (RRes.err (RuntimeError.Return v), st)
          | _ =>
            let previous := st.environment
            let (catchRef, st) := allocEnv (EnvData.with_enclosing previous) st
            let err_msg := Value.String (runtimeErrorToString n st e)
            let st := Environment.define st catchRef catch_var.lexeme err_msg
            let st := { st with environment := catchRef }
            (match execute n catch_branch st with
             | (RRes.panicked m, st) => (RRes.panicked m, st)
             | (RRes.fuel, st) => (RRes.fuel, st)
             | (result, st) => (result, { st with environment := previous })))
       | (RRes.panicked m, st) => (RRes.panicked m, st)
       | (RRes.fuel, st) => (RRes.fuel, st))
    | Stmt.While condition body => whileLoop n condition body
    | Stmt.For initializer condition increment body => fun st =>
      let previous_env := st.environment
      let (newRef, st) := allocEnv (EnvData.with_enclosing previous_env) st
      let st := { st with environment := newRef }
      (match
        (match initializer with
         | Option.some init => execute n init st
         | Option.none => (RRes.ok (), st)) with
       | (RRes.ok _, st) =>
         (match forLoop n condition increment body st with
          | (RRes.panicked m, st) => (RRes.panicked m, st)
          | (RRes.fuel, st) => (RRes.fuel, st)
          | (result, st) => (result, { st with environment := previous_env }))
       -- An initializer error propagates through `?` before the
       -- `self.environment = previous_env` restore runs: the current
       -- environment is left pointing at the for-header scope.
       | (RRes.err e, st) => (RRes.err e, st)
       | (RRes.panicked m, st) => (RRes.panicked m, st)
       | (RRes.fuel, st) => (RRes.fuel, st))
    | Stmt.Function name params body => fun st =>
      let function := Value.Function name.lexeme (params.map (fun t => t.lexeme)) body
        st.environment
      (RRes.ok (), Environment.define st st.environment name.lexeme function)
    | Stmt.Class name superclass methods => do
      let super_klass ←
        match superclass with
        | Option.some expr => do
          let val ← evaluate n expr
          (match val with
           | Value.Class c => pure (Option.some c)
           | _ => throwS (RuntimeError.TypeError "Superclass must be a class."))
        | Option.none => pure Option.none
      fun st =>
        let st :=
          match super_klass with
          | Option.some s =>
            let (r, st) := allocEnv (EnvData.with_enclosing st.environment) st
            let st := { st with environment := r }
            Environment.define st r "super" (Value.Class s)
          | Option.none => st
        let method_map := buildMethodMap st.environment methods []
        let klass := RoxClass.mk name.lexeme method_map super_klass
        match super_klass with
        | Option.some _ =>
          (match (st.envs.getD st.environment EnvData.new).enclosing with
           | Option.some enclosing =>
             let st := { st with environment := enclosing }
             let (classRef, st) := allocClass klass st
             (RRes.ok (),
              Environment.define st st.environment name.lexeme (Value.Class classRef))
           | Option.none =>
             (RRes.panicked "called Option::unwrap() on a None value", st))
        | Option.none =>
          let (classRef, st) := allocClass klass st
          (RRes.ok (),
           Environment.define st st.environment name.lexeme (Value.Class classRef))
    | Stmt.Return _ value => do
      let return_val ←
        match value with
        | Option.some expr => evaluate n expr
        | Option.none => pure Value.Nil
      throwS (RuntimeError.Return return_val)
    | Stmt.Break => throwS RuntimeError.Break
    | Stmt.Continue => throwS RuntimeError.Continue
    | Stmt.Export inner => do
      execute n inner
      (match inner with
       | Stmt.VarDecl name _ => exportName name.lexeme
       | Stmt.Function name _ _ => exportName name.lexeme
       | Stmt.Class name _ _ => exportName name.lexeme
       | _ => panicS "Parser allowed invalid export statement")
    | Stmt.Empty => pure ()
    | Stmt.Throw expr => do
      -- Modelled from the spec: interpreter.rs predates `Stmt::Throw`; §4.4
      -- says throw evaluates its expression and raises a user-originated
      -- (catchable) runtime error carrying the value's string form.
      let v ← evaluate n expr
      fun st =>
        (RRes.err (RuntimeError.Catchable (Value.String (valueToString n st v))), st)

  /-- The export-name bookkeeping of `Stmt::Export`: insert into the set at
  the top of the exports stack; outside a module load the stack is empty and
  the name is ignored. -/
def exportName (name : String) : EvalM Unit := fun st =>
    match st.exports_stack with
    | current_exports :: rest =>
      (RRes.ok (), { st with exports_stack := setInsert current_exports name :: rest })
    | [] => (RRes.ok (), st)

  /-- The `while` statement loop (`Stmt::While` arm of `execute`). -/
def whileLoop : Nat → Expr → Stmt → EvalM Unit
    | 0, _, _ => fuelS
    | n + 1, condition, body => do
      let c ← evaluate n condition
      if Value.is_truthy c then
        fun st =>
          match execute n body st with
          | (RRes.ok _, st) => whileLoop n condition body st
          | (RRes.err RuntimeError.Break, st) => (RRes.ok (), st)
          | (RRes.err RuntimeError.Continue, st) => whileLoop n condition body st
          | (RRes.err e, st) => (RRes.err e, st)
          | (RRes.panicked m, st) => (RRes.panicked m, st)
          | (RRes.fuel, st) => (RRes.fuel, st)
      else pure ()

  /-- The `loop` closure of the `Stmt::For` arm: condition check, body
  (`break` exits, `continue` still reaches the increment), increment. -/
def forLoop : Nat → Option Expr → Option Expr → Stmt → EvalM Unit
    | 0, _, _, _ => fuelS
    | n + 1, condition, increment, body => do
      let proceed ←
        match condition with
        | Option.some cond => do
          let c ← evaluate n cond
          pure (Value.is_truthy c)
        | Option.none => pure true
      if proceed then
        fun st =>
          match execute n body st with
          | (RRes.ok _, st) => forLoopIncr n condition increment body st
          | (RRes.err RuntimeError.Break, st) => (RRes.ok (), st)
          | (RRes.err RuntimeError.Continue, st) => forLoopIncr n condition increment body st
          | (RRes.err e, st) => (RRes.err e, st)
          | (RRes.panicked m, st) => (RRes.panicked m, st)
          | (RRes.fuel, st) => (RRes.fuel, st)
      else pure ()

  /-- Run the `for` increment (when present) and loop again. -/
def forLoopIncr : Nat → Option Expr → Option Expr → Stmt → EvalM Unit
    | 0, _, _, _ => fuelS
    | n + 1, condition, increment, body => do
      (match increment with
       | Option.some incr => do
         let _ ← evaluate n incr
         pure ()
       | Option.none => pure ())
      forLoop n condition increment body

  /-- `Interpreter::execute_block`: allocate the new scope, run the
  statements, and restore the previous environment on both the `Ok` and the
  `Err` path (a panic, as in Rust, skips the restore). -/
def execute_block : Nat → List Stmt → EnvData → EvalM Unit
    | 0, _, _ => fuelS
    | n + 1, statements, new_env => fun st =>
      let previous := st.environment
      let (newRef, st) := allocEnv new_env st
      let st := { st with environment := newRef }
      match execStmts n statements st with
      | (RRes.panicked m, st) => (RRes.panicked m, st)
      | (RRes.fuel, st) => (RRes.fuel, st)
      | (result, st) => (result, { st with environment := previous })

  /-- Statement sequencing with `?` propagation (the `for stmt in statements`
  loops of `execute_block` and of the module executor). -/
def execStmts : Nat → List Stmt → EvalM Unit
    | 0, _ => fuelS
    | _ + 1, [] => pure ()
    | n + 1, s :: rest => do
      execute n s
      execStmts n rest

/-- `Interpreter::evaluate`. -/
def evaluate : Nat → Expr → EvalM Value
  | 0, _ => fuelS
  | n + 1, expr =>
    match expr with
    | Expr.Number value =>
      (match parse_f64 value with
       | Option.some q => pure (Value.Number q)
       | Option.none => throwS (RuntimeError.Generic "Invalid number"))
    | Expr.String value => pure (Value.String value)
    | Expr.Boolean value => pure (Value.Boolean value)
    | Expr.Nil => pure Value.Nil
    | Expr.List elements => do
      let vals ← evaluate_elements n elements
      fun st =>
        let (r, st) := allocList vals st
        (RRes.ok (Value.List r), st)
    | Expr.Tuple elements => do
      let vals ← evaluate_elements n elements
      pure (Value.Tuple vals)
    | Expr.Dict elements => do
      let entries ← evalDictEntries n elements []
      fun st =>
        let (r, st) := allocDict entries st
        (RRes.ok (Value.Dict r), st)
    | Expr.Variable id name => look_up_variable n name id
    | Expr.Assign id name e => do
      let value ← evaluate n e
      fun st =>
        match mapGet st.locals id with
        | Option.some distance =>
          (match Environment.assign_at st st.environment distance name.lexeme value with
           | (RRes.ok _, st) => (RRes.ok value, st)
           | (RRes.err e2, st) => (RRes.err e2, st)
           | (RRes.panicked m, st) => (RRes.panicked m, st)
           | (RRes.fuel, st) => (RRes.fuel, st))
        | Option.none =>
          (match Environment.assign n st st.globals name.lexeme value with
           | (RRes.ok success, st) =>
             if success then (RRes.ok value, st)
             else (RRes.err (RuntimeError.UndefinedVariable name.lexeme), st)
           | (RRes.err e2, st) => (RRes.err e2, st)
           | (RRes.panicked m, st) => (RRes.panicked m, st)
           | (RRes.fuel, st) => (RRes.fuel, st))
    | Expr.AssignOp id name op e => do
      let current_val ← look_up_variable n name id
      let right_val ← evaluate n e
      let new_val ←
        match op with
        | Operator.Add => fun st => add_values st current_val right_val
        | _ => throwS (RuntimeError.Generic "Invalid assign op")
      fun st =>
        match mapGet st.locals id with
        | Option.some distance =>
          (match Environment.assign_at st st.environment distance name.lexeme new_val with
           | (RRes.ok _, st) => (RRes.ok new_val, st)
           | (RRes.err e2, st) => (RRes.err e2, st)
           | (RRes.panicked m, st) => (RRes.panicked m, st)
           | (RRes.fuel, st) => (RRes.fuel, st))
        | Option.none =>
          -- The global branch discards the `assign` success flag (unlike
          -- `Expr::Assign` there is no undefined-variable error here).
          (match Environment.assign n st st.globals name.lexeme new_val with
           | (RRes.ok _, st) => (RRes.ok new_val, st)
           | (RRes.err e2, st) => (RRes.err e2, st)
           | (RRes.panicked m, st) => (RRes.panicked m, st)
           | (RRes.fuel, st) => (RRes.fuel, st))
    | Expr.Logical left op right => do
      let left_val ← evaluate n left
      if op = Operator.LogicalOr ∨ op = Operator.OrKeyword then
        if Value.is_truthy left_val then pure left_val
        else evaluate n right
      else
        if ¬ Value.is_truthy left_val then pure left_val
        else evaluate n right
    | Expr.Binary left op right => do
      let l ← evaluate n left
      let r ← evaluate n right
      match op with
      | Operator.Add => fun st => add_values st l r
      | Operator.Sub => liftR (check_number_operands l r
          (fun a b => RRes.ok (Value.Number (a - b))))
      | Operator.Mul => liftR (check_number_operands l r
          (fun a b => RRes.ok (Value.Number (a * b))))
      | Operator.Div => liftR (check_number_operands l r
          (fun a b =>
            if b = 0 then RRes.err RuntimeError.DivisionByZero
            else RRes.ok (Value.Number (a / b))))
      | Operator.Mod => liftR (check_number_operands l r
          (fun a b =>
            if b = 0 then RRes.err RuntimeError.DivisionByZero
            else RRes.ok (Value.Number (f64RemEuclid a b))))
      | Operator.BitwiseAnd => eval_bitwise n left right i64Land
      | Operator.BitwiseOr => eval_bitwise n left right i64Lor
      | Operator.BitwiseXor => eval_bitwise n left right i64Xor
      | Operator.Greater => liftR (check_number_operands l r
          (fun a b => RRes.ok (Value.Boolean (b < a))))
      | Operator.GreaterEqual => liftR (check_number_operands l r
          (fun a b => RRes.ok (Value.Boolean (b ≤ a))))
      | Operator.Less => liftR (check_number_operands l r
          (fun a b => RRes.ok (Value.Boolean (a < b))))
      | Operator.LessEqual => liftR (check_number_operands l r
          (fun a b => RRes.ok (Value.Boolean (a ≤ b))))
      | Operator.Equal => fun st => (RRes.ok (Value.Boolean (valueEq n st l r)), st)
      | Operator.NotEqual => fun st => (RRes.ok (Value.Boolean (¬ valueEq n st l r)), st)
      | _ => throwS (RuntimeError.Generic "Unknown binary operator")
    | Expr.Call _ callee args => do
      let callee_value ← evaluate n callee
      let arg_vals ← evaluate_elements n args
      match callee_value with
      | Value.Function _ param_names body closure =>
        if args.length ≠ param_names.length then
          throwS (RuntimeError.Generic "Arity mismatch")
        else do
          -- The source re-evaluates the argument list here (its first
          -- `arg_vals` is shadowed by a second evaluation loop), so every
          -- argument of a user-function call is evaluated twice.
          let arg_vals2 ← evaluate_elements n args
          fun st =>
            let (func_env, st) := allocEnv (EnvData.with_enclosing closure) st
            let st := defineParams st func_env param_names arg_vals2
            -- `(*func_env).clone().into_inner()`: the environment value is
            -- copied out of the cell and re-wrapped by `execute_block`.
            let envCopy := st.envs.getD func_env EnvData.new
            match execute_block n body envCopy st with
            | (RRes.ok _, st) => (RRes.ok Value.Nil, st)
            | (RRes.err (RuntimeError.Return v), st) => (RRes.ok v, st)
            | (RRes.err e, st) => (RRes.err e, st)
            | (RRes.panicked m, st) => (RRes.panicked m, st)
            | (RRes.fuel, st) => (RRes.fuel, st)
      | Value.Class klass => fun st =>
        let (instRef, st) := allocInstance (RoxInstance.mk klass []) st
        (match find_method n st klass "init" with
         | RRes.ok (Option.some init_method) =>
           (match Value.bind st init_method (Value.Instance instRef) with
            | (RRes.ok bound_init, st) =>
              (match bound_init with
               | Value.Function _ param_names body closure =>
                 if arg_vals.length ≠ param_names.length then
                   (RRes.err (RuntimeError.Generic
                     ("Expected " ++ toString param_names.length ++
                      " arguments but got " ++ toString arg_vals.length ++ ".")), st)
                 else
                   let (func_env, st) := allocEnv (EnvData.with_enclosing closure) st
                   let st := defineParams st func_env param_names arg_vals
                   let envCopy := st.envs.getD func_env EnvData.new
                   (match execute_block n body envCopy st with
                    | (RRes.ok _, st) => (RRes.ok (Value.Instance instRef), st)
                    | (RRes.err (RuntimeError.Return _), st) =>
                      (RRes.ok (Value.Instance instRef), st)
                    | (RRes.err e, st) => (RRes.err e, st)
                    | (RRes.panicked m, st) => (RRes.panicked m, st)
                    | (RRes.fuel, st) => (RRes.fuel, st))
               -- `if let Value::Function` cannot fail for a bound function;
               -- the source falls through to returning the instance.
               | _ => (RRes.ok (Value.Instance instRef), st))
            | (RRes.err e, st) => (RRes.err e, st)
            | (RRes.panicked m, st) => (RRes.panicked m, st)
            | (RRes.fuel, st) => (RRes.fuel, st))
         | RRes.ok Option.none =>
           if arg_vals.length ≠ 0 then
             (RRes.err (RuntimeError.Generic
               ("Expected 0 arguments but got " ++ toString arg_vals.length ++ ".")), st)
           else (RRes.ok (Value.Instance instRef), st)
         | RRes.err e => (RRes.err e, st)
         | RRes.panicked m => (RRes.panicked m, st)
         | RRes.fuel => (RRes.fuel, st))
      | Value.BoundNativeMethod receiver method =>
        (match method with
         | Value.NativeFunction _ arity func =>
           if arg_vals.length ≠ arity then
             throwS (RuntimeError.Generic
               ("Expected " ++ toString arity ++ " arguments but got " ++
                toString arg_vals.length ++ "."))
           else callNative n func (receiver :: arg_vals)
         | _ => panicS "BoundNativeMethod must wrap a NativeFunction")
      | Value.NativeFunction _ arity func =>
        if arg_vals.length ≠ arity then
          throwS (RuntimeError.Generic
            ("Expected " ++ toString arity ++ " arguments but got " ++
             toString arg_vals.length ++ "."))
        else callNative n func arg_vals
      | _ => throwS (RuntimeError.TypeError "Can only call functions")
    | Expr.This id keyword => look_up_variable n keyword id
    | Expr.Lambda _ params body => fun st =>
      (RRes.ok (Value.Function "<anonymous>" (params.map (fun t => t.lexeme)) body
        st.environment), st)
    | Expr.Get object name => do
      let obj ← evaluate n object
      match obj with
      | Value.Instance instance_rc => fun st =>
        (match st.instancesH.get? instance_rc with
         | Option.none => (RRes.panicked "invalid instance reference", st)
         | Option.some inst =>
           (match mapGet inst.fields name.lexeme with
            | Option.some value => (RRes.ok value, st)
            | Option.none =>
              (match find_method n st inst.cls name.lexeme with
               | RRes.ok (Option.some method) =>
                 (match Value.bind st method (Value.Instance instance_rc) with
                  | (RRes.ok bound_method, st) => (RRes.ok bound_method, st)
                  | (RRes.err e, st) => (RRes.err e, st)
                  | (RRes.panicked m, st) => (RRes.panicked m, st)
                  | (RRes.fuel, st) => (RRes.fuel, st))
               | RRes.ok Option.none =>
                 (RRes.err (RuntimeError.Generic
                   ("Undefined property '" ++ name.lexeme ++ "'.")), st)
               | RRes.err e => (RRes.err e, st)
               | RRes.panicked m => (RRes.panicked m, st)
               | RRes.fuel => (RRes.fuel, st))))
      | Value.String _ =>
        (match lookup_method obj name.lexeme with
         | Option.some method =>
           pure (Value.BoundNativeMethod obj method)
         | Option.none =>
           throwS (RuntimeError.Generic
             ("String has no property '" ++ name.lexeme ++ "'.")))
      | Value.List _ =>
        (match lookup_method obj name.lexeme with
         | Option.some method =>
           pure (Value.BoundNativeMethod obj method)
         | Option.none =>
           throwS (RuntimeError.Generic
             ("List has no property '" ++ name.lexeme ++ "'.")))
      | Value.Dict dict_rc => fun st =>
        (match lookup_method obj name.lexeme with
         | Option.some method =>
           (RRes.ok (Value.BoundNativeMethod (Value.Dict dict_rc) method), st)
         | Option.none =>
           (match mapGet (st.dicts.getD dict_rc []) name.lexeme with
            | Option.some value => (RRes.ok value, st)
            | Option.none =>
              (RRes.err (RuntimeError.Generic
                ("Dict has no property '" ++ name.lexeme ++ "'.")), st)))
      | Value.Module module_rc => fun st =>
        (match st.modulesH.get? module_rc with
         | Option.none => (RRes.panicked "invalid module reference", st)
         | Option.some module_ =>
           (match mapGet module_.exports name.lexeme with
            | Option.some value => (RRes.ok value, st)
            | Option.none =>
              if ¬ module_.is_initialized then
                (RRes.err (RuntimeError.Generic
                  ("Accessing variable '" ++ name.lexeme ++ "' from module '" ++
                   module_.name ++
                   "' before it is fully initialized. (Circular Dependency detected)")), st)
              else
                (RRes.err (RuntimeError.Generic
                  ("Module '" ++ module_.name ++ "' has no export '" ++
                   name.lexeme ++ "'.")), st)))
      | _ => throwS (RuntimeError.TypeError "Only instances have properties.")
    | Expr.GetIndex _ object index _ => do
      let obj ← evaluate n object
      let idx ← evaluate n index
      fun st => (evalGetIndex n st obj idx, st)
    | Expr.SetIndex _ object index _ value => do
      let obj ← evaluate n object
      let idx ← evaluate n index
      let val ← evaluate n value
      fun st => evalSetIndex n st obj idx val
    | Expr.Set object name value => do
      let obj ← evaluate n object
      match obj with
      | Value.Instance instance_rc => do
        let val ← evaluate n value
        fun st =>
          match st.instancesH.get? instance_rc with
          | Option.none => (RRes.panicked "invalid instance reference", st)
          | Option.some inst =>
            let newInst := RoxInstance.mk inst.cls (mapInsert inst.fields name.lexeme val)
            (RRes.ok val, { st with instancesH := st.instancesH.set instance_rc newInst })
      | _ => throwS (RuntimeError.TypeError "Only instances have fields.")
    | Expr.Grouping e => evaluate n e
    | Expr.Unary op e => do
      let right ← evaluate n e
      match op with
      | Operator.Not => pure (Value.Boolean (¬ Value.is_truthy right))
      | Operator.Sub =>
        (match right with
         | Value.Number q => pure (Value.Number (-q))
         | _ => throwS (RuntimeError.TypeError "Operand must be a number."))
      | Operator.BitwiseNot =>
        (match right with
         | Value.Number q => pure (Value.Number ((i64Not (f64AsI64 q) : Int) : Q))
         | _ => throwS (RuntimeError.TypeError "Operand must be a number."))
      | _ => throwS (RuntimeError.Generic ("Invalid unary operator: " ++ reprStr op))
    | Expr.Super id _ method => fun st =>
      (match mapGet st.locals id with
       | Option.none => (RRes.panicked "called Option::unwrap() on a None value", st)
       | Option.some distance =>
         (match Environment.get_at st st.environment distance "super" with
          | RRes.ok (Option.some superclass) =>
            -- `distance - 1` on a `usize`: distance 0 is the subtraction
            -- overflow panic.
            if distance = 0 then (RRes.panicked "attempt to subtract with overflow", st)
            else
              (match Environment.get_at st st.environment (distance - 1) "this" with
               | RRes.ok (Option.some instance_) =>
                 (match superclass with
                  | Value.Class super_klass =>
                    (match find_method n st super_klass method.lexeme with
                     | RRes.ok (Option.some method_val) =>
                       (match Value.bind st method_val instance_ with
                        | (RRes.ok bound, st) => (RRes.ok bound, st)
                        | (RRes.err e, st) => (RRes.err e, st)
                        | (RRes.panicked m, st) => (RRes.panicked m, st)
                        | (RRes.fuel, st) => (RRes.fuel, st))
                     | RRes.ok Option.none =>
                       (RRes.err (RuntimeError.UndefinedVariable
                         ("Undefined property '" ++ method.lexeme ++ "'.")), st)
                     | RRes.err e => (RRes.err e, st)
                     | RRes.panicked m => (RRes.panicked m, st)
                     | RRes.fuel => (RRes.fuel, st))
                  | _ => (RRes.panicked "Super not class", st))
               | RRes.ok Option.none =>
                 (RRes.panicked "called Option::unwrap() on a None value", st)
               | RRes.err e => (RRes.err e, st)
               | RRes.panicked m => (RRes.panicked m, st)
               | RRes.fuel => (RRes.fuel, st))
          | RRes.ok Option.none =>
            (RRes.panicked "called Option::unwrap() on a None value", st)
          | RRes.err e => (RRes.err e, st)
          | RRes.panicked m => (RRes.panicked m, st)
          | RRes.fuel => (RRes.fuel, st)))

  /-- `Interpreter::evaluate_elements` (also the explicit argument loops in
  the `Expr::Call` arm): left-to-right evaluation of an expression list. -/
def evaluate_elements : Nat → List Expr → EvalM (List Value)
    | 0, _ => fuelS
    | _ + 1, [] => pure []
    | n + 1, e :: rest => do
      let v ← evaluate n e
      let vs ← evaluate_elements n rest
      pure (v :: vs)

  /-- The entry loop of the `Expr::Dict` arm: evaluate the key, stringify
  it, evaluate the value, insert. -/
def evalDictEntries : Nat → List (Expr × Expr) → List (String × Value) →
      EvalM (List (String × Value))
    | 0, _, _ => fuelS
    | _ + 1, [], acc => pure acc
    | n + 1, kv :: rest, acc => do
      let k ← evaluate n kv.1
      let key ← (fun st => (RRes.ok (valueToString n st k), st))
      let val ← evaluate n kv.2
      evalDictEntries n rest (mapInsert acc key val)

  /-- `Interpreter::eval_bitwise`: re-evaluates both operand expressions
  (the `Expr::Binary` arm has already evaluated them once), truncates to
  `i64`, applies the operation, converts back. -/
def eval_bitwise : Nat → Expr → Expr → (Int → Int → Int) → EvalM Value
    | 0, _, _, _ => fuelS
    | n + 1, left_expr, right_expr, op => do
      let l_val ← evaluate n left_expr
      let r_val ← evaluate n right_expr
      match l_val, r_val with
      | Value.Number n1, Value.Number n2 =>
        pure (Value.Number ((op (f64AsI64 n1) (f64AsI64 n2) : Int) : Q))
      | l, r =>
        throwS (RuntimeError.TypeError
          ("Bitwise operands must be numbers. Got " ++ Value.type_name l ++
           " and " ++ Value.type_name r ++ "."))

  /-- Dispatch of native functions (`std_lib::globals` and the
  string/list/fs method bodies; `mathFn` bodies are out-of-scope per the
  spec and yield an unspecified number). -/
def callNative : Nat → NativeFn → List Value → EvalM Value
    | 0, _, _ => fuelS
    | n + 1, f, args =>
      match f with
      | NativeFn.clock => fun st => (RRes.ok (Value.Number st.now), st)
      | NativeFn.input => fun st =>
        let st :=
          match args.head? with
          | Option.some prompt =>
            { st with output := st.output ++ [valueToString n st prompt] }
          | Option.none => st
        (match st.stdin with
         | [] => (RRes.ok (Value.String ""), st)
         | line :: rest => (RRes.ok (Value.String (trimEnd line)), { st with stdin := rest }))
      | NativeFn.importNative =>
        if args.length ≠ 1 then
          throwS (RuntimeError.Generic "import() takes exactly 1 argument.")
        else
          (match args.getD 0 Value.Nil with
           | Value.String path => import_module n path
           | _ => throwS (RuntimeError.TypeError "Import path must be a string."))
      | NativeFn.fsReadFile => fun st =>
        (match args.head? with
         | Option.some (Value.String path_str) =>
           (match mapGet st.fs path_str with
            | Option.some content => (RRes.ok (Value.String content), st)
            | Option.none =>
              (RRes.err (RuntimeError.Generic
                "Failed to read file: No such file or directory (os error 2)"), st))
         | _ => (RRes.err (RuntimeError.TypeError "Path must be a string."), st))
      | NativeFn.fsWriteFile => fun st =>
        if args.length ≠ 2 then
          (RRes.err (RuntimeError.Generic "Expected 2 arguments."), st)
        else
          (match args.getD 0 Value.Nil, args.getD 1 Value.Nil with
           | Value.String path_str, Value.String content =>
             (RRes.ok Value.Nil, { st with fs := mapInsert st.fs path_str content })
           | Value.String _, _ =>
             (RRes.err (RuntimeError.TypeError "Content must be a string."), st)
           | _, _ => (RRes.err (RuntimeError.TypeError "Path must be a string."), st))
      | NativeFn.fsExists => fun st =>
        (match args.head? with
         | Option.some (Value.String path_str) =>
           (RRes.ok (Value.Boolean (mapContains st.fs path_str)), st)
         | _ => (RRes.err (RuntimeError.TypeError "Path must be a string."), st))
      | NativeFn.mathFn _ => pure (Value.Number 0)
      | NativeFn.listPush => fun st =>
        (match ensure_list (args.getD 0 Value.Nil) with
         | RRes.ok r =>
           let arg := args.getD 1 Value.Nil
           let st := { st with lists := st.lists.set r (st.lists.getD r [] ++ [arg]) }
           (RRes.ok (Value.String (valueToString n st arg)), st)
         | RRes.err e => (RRes.err e, st)
         | RRes.panicked m => (RRes.panicked m, st)
         | RRes.fuel => (RRes.fuel, st))
      | NativeFn.listPop => fun st =>
        (match ensure_list (args.getD 0 Value.Nil) with
         | RRes.ok r =>
           let xs := st.lists.getD r []
           (match xs.getLast? with
            | Option.some v =>
              (RRes.ok v, { st with lists := st.lists.set r xs.dropLast })
            | Option.none => (RRes.ok Value.Nil, st))
         | RRes.err e => (RRes.err e, st)
         | RRes.panicked m => (RRes.panicked m, st)
         | RRes.fuel => (RRes.fuel, st))
      | NativeFn.listLen => fun st =>
        (match ensure_list (args.getD 0 Value.Nil) with
         | RRes.ok r => (RRes.ok (Value.Number ((st.lists.getD r []).length : Nat)), st)
         | RRes.err e => (RRes.err e, st)
         | RRes.panicked m => (RRes.panicked m, st)
         | RRes.fuel => (RRes.fuel, st))
      | NativeFn.listInsert => fun st =>
        (match ensure_list (args.getD 0 Value.Nil) with
         | RRes.ok r =>
           (match args.getD 1 Value.Nil with
            | Value.Number q =>
              if q < 0 ∨ ¬ ratIsInt q then
                (RRes.err (RuntimeError.IndexError
                  "Index must be a non-negative integer"), st)
              else
                let index := f64AsUsize q
                let xs := st.lists.getD r []
                if xs.length < index then
                  (RRes.err (RuntimeError.IndexError
                    ("Index " ++ toString index ++ " out of bounds (length " ++
                     toString xs.length ++ ")")), st)
                else
                  let value := args.getD 2 Value.Nil
                  (RRes.ok Value.None,
                   { st with lists := st.lists.set r (xs.take index ++ [value] ++ xs.drop index) })
            | _ => (RRes.err (RuntimeError.TypeError "Index must be a number"), st))
         | RRes.err e => (RRes.err e, st)
         | RRes.panicked m => (RRes.panicked m, st)
         | RRes.fuel => (RRes.fuel, st))
      | NativeFn.listJoin => fun st =>
        (match ensure_list (args.getD 0 Value.Nil) with
         | RRes.ok r =>
           let separator :=
             match args.getD 1 Value.Nil with
             | Value.String s => s
             | other => valueToString n st other
           let joined := String.intercalate separator
             ((st.lists.getD r []).map (fun v => valueToString n st v))
           (RRes.ok (Value.String joined), st)
         | RRes.err e => (RRes.err e, st)
         | RRes.panicked m => (RRes.panicked m, st)
         | RRes.fuel => (RRes.fuel, st))
      | NativeFn.listReverse => fun st =>
        (match ensure_list (args.getD 0 Value.Nil) with
         | RRes.ok r =>
           (RRes.ok Value.None,
            { st with lists := st.lists.set r (st.lists.getD r []).reverse })
         | RRes.err e => (RRes.err e, st)
         | RRes.panicked m => (RRes.panicked m, st)
         | RRes.fuel => (RRes.fuel, st))
      | NativeFn.stringLen =>
        liftR ((ensure_string (args.getD 0 Value.Nil)).map
          (fun s => Value.Number (s.utf8ByteSize : Nat)))
      | NativeFn.stringSplit => do
        let s ← liftR (ensure_string (args.getD 0 Value.Nil))
        let delimiter ← liftR (ensure_string (args.getD 1 Value.Nil))
        -- `str::split` on a string pattern; on an empty pattern Rust also
        -- yields leading/trailing empty pieces, which `splitOn` does not —
        -- no caller in scope splits on the empty string.
        fun st =>
          let (r, st) := allocList ((s.splitOn delimiter).map Value.String) st
          (RRes.ok (Value.List r), st)
      | NativeFn.stringSubstring => fun st =>
        (match ensure_string (args.getD 0 Value.Nil) with
         | RRes.ok s =>
           (match parseDigits (valueToString n st (args.getD 1 Value.Nil)).toList,
                  parseDigits (valueToString n st (args.getD 2 Value.Nil)).toList with
            | Option.some start, Option.some stop =>
              (match byteSlice s start stop with
               | Option.some sub => (RRes.ok (Value.String sub), st)
               | Option.none => (RRes.panicked "byte index out of bounds", st))
            | _, _ =>
              (RRes.panicked "called Result::unwrap() on an Err value", st))
         | RRes.err e => (RRes.err e, st)
         | RRes.panicked m => (RRes.panicked m, st)
         | RRes.fuel => (RRes.fuel, st))
      | NativeFn.stringReplace => do
        let s ← liftR (ensure_string (args.getD 0 Value.Nil))
        let old ← liftR (ensure_string (args.getD 1 Value.Nil))
        let new ← liftR (ensure_string (args.getD 2 Value.Nil))
        pure (Value.String (s.replace old new))

  /-- `Interpreter::import_module`: resolve, consult the cache, publish an
  uninitialised module value, then compile and execute the module body. -/
def import_module : Nat → String → EvalM Value
    | 0, _ => fuelS
    | n + 1, import_path => fun st =>
      match resolve_path st import_path with
      | RRes.err e => (RRes.err e, st)
      | RRes.panicked m => (RRes.panicked m, st)
      | RRes.fuel => (RRes.fuel, st)
      | RRes.ok absolute_path =>
        -- `cfg!(windows)` is false: the cache key is the resolved path.
        let path_key := absolute_path
        match mapGet st.modules path_key with
        | Option.some module_ => (RRes.ok module_, st)
        | Option.none =>
          let st := { st with exports_stack := [] :: st.exports_stack }
          match mapGet st.fs absolute_path with
          | Option.none =>
            -- A read failure propagates through `?` before the cleanup
            -- code runs (the pushed exports entry is leaked).
            (RRes.err (RuntimeError.Generic
              ("Failed to read module '" ++ path_key ++
               "': No such file or directory (os error 2)")), st)
          | Option.some source =>
            let (mref, st) := allocModule (RoxModule.new path_key) st
            let module_value := Value.Module mref
            -- The source inserts the fresh module into the cache twice.
            let st := { st with modules := mapInsert st.modules path_key module_value }
            let st := { st with modules := mapInsert st.modules path_key module_value }
            match pathParent absolute_path with
            | Option.none =>
              (RRes.err (RuntimeError.Generic "Failed to get module directory"), st)
            | Option.some module_dir =>
              let st := { st with path_stack := module_dir :: st.path_stack }
              match importCompileExec n path_key source module_value st with
              | (RRes.ok _, st) =>
                let st := { st with path_stack := st.path_stack.tail }
                (RRes.ok module_value, st)
              | (RRes.err e, st) =>
                let st := { st with path_stack := st.path_stack.tail }
                let st := { st with modules := mapRemove st.modules path_key }
                (RRes.err e, st)
              | (RRes.panicked m, st) => (RRes.panicked m, st)
              | (RRes.fuel, st) => (RRes.fuel, st)

  /-- The compile-and-execute closure inside `import_module` (step 7):
  tokenize, parse, fresh module environment with globals installed, resolve
  (through the shared `locals` side table), execute, fill the exports and
  mark the module initialised, restore the previous globals/current pair.
  The scan and parse of the module body are pure in the interpreter state,
  so they run on a fixed embedding budget (bounding only module size)
  rather than on the remaining evaluation fuel. -/
def importCompileExec : Nat → String → String → Value → EvalM Unit
    | 0, _, _, _ => fuelS
    | n + 1, path_key, source, module_value => fun st =>
      match tokenize 1000 source with
      | Option.none => (RRes.fuel, st)
      | Option.some (Except.error e) =>
        (RRes.err (RuntimeError.Generic
          ("Scan error in '" ++ path_key ++ "': " ++ scannerErrorDisplay e)), st)
      | Option.some (Except.ok tokens) =>
        match parse 1000 tokens with
        | (RRes.err e, _) =>
          (RRes.err (RuntimeError.Generic
            ("Parse error in '" ++ path_key ++ "': " ++ e.message)), st)
        | (RRes.panicked m, _) => (RRes.panicked m, st)
        | (RRes.fuel, _) => (RRes.fuel, st)
        | (RRes.ok ast, _) =>
          let (module_env, st) := allocEnv EnvData.new st
          let st := init_globals st module_env
          let previous_globals := st.globals
          let previous_env := st.environment
          let st := { st with globals := module_env, environment := module_env }
          match Resolver.resolve_stmts n ast.body (Resolver.new st.locals) with
          | (RRes.err msg, rst) =>
            let st := { st with locals := rst.locals,
                                globals := previous_globals,
                                environment := previous_env }
            (RRes.err (RuntimeError.Generic
              ("Resolution error in '" ++ path_key ++ "': " ++ msg)), st)
          | (RRes.panicked m, _) => (RRes.panicked m, st)
          | (RRes.fuel, _) => (RRes.fuel, st)
          | (RRes.ok _, rst) =>
            let st := { st with locals := rst.locals }
            match execStmts n ast.body st with
            | (RRes.panicked m, st) => (RRes.panicked m, st)
            | (RRes.fuel, st) => (RRes.fuel, st)
            | (exec_res, st) =>
              let st :=
                match exec_res with
                | RRes.ok _ =>
                  let env_values := (st.envs.getD st.environment EnvData.new).values
                  let exported_names := st.exports_stack.headD []
                  -- Fill the exports of the pre-published module value and
                  -- mark it initialised.
                  (match module_value with
                   | Value.Module m_rc =>
                     let old := st.modulesH.getD m_rc (RoxModule.new path_key)
                     let new_exports := exported_names.foldl
                       (fun acc nm =>
                         match mapGet env_values nm with
                         | Option.some val => mapInsert acc nm val
                         | Option.none => acc) old.exports
                     let filled := RoxModule.mk old.name new_exports true
                     { st with modulesH := st.modulesH.set m_rc filled }
                   | _ => st)
                | _ => st
              let st := { st with globals := previous_globals,
                                  environment := previous_env }
              let st := { st with exports_stack := st.exports_stack.tail }
              (exec_res, st)

end

/-! ## Driver (src/evaluate/interpreter.rs `interpret`, src/main.rs) -/

/-- The statement loop of `Interpreter::interpret`: a `Break`, `Continue` or
`Return` signal escaping to the top level is the source's
`panic!("Critical Error: ...")`. -/
def interpretLoop : Nat → List Stmt → EvalM Unit
  | 0, _ => fuelS
  | _ + 1, [] => pure ()
  | n + 1, s :: rest => fun st =>
    match execute n s st with
    | (RRes.ok _, st) => interpretLoop n rest st
    | (RRes.err RuntimeError.Break, st) =>
      (RRes.panicked "Critical Error: Parser allowed 'break' outside loop!", st)
    | (RRes.err RuntimeError.Continue, st) =>
      (RRes.panicked "Critical Error: Parser allowed 'continue' outside loop!", st)
    | (RRes.err (RuntimeError.Return _), st) =>
      (RRes.panicked "Critical Error: Parser allowed 'return' outside function!", st)
    | (RRes.err e, st) => (RRes.err e, st)
    | (RRes.panicked m, st) => (RRes.panicked m, st)
    | (RRes.fuel, st) => (RRes.fuel, st)

/-- `Interpreter::interpret`. -/
def interpret (fuel : Nat) (ast : AST) : EvalM Value := do
  interpretLoop fuel ast.body
  pure Value.Nil

/-- `Interpreter::new`, parameterised by the ambient process facts the Rust
interpreter reads from the OS (file system, working directory, clock,
stdin). -/
def interpreterNew (fs : List (String × String)) (cwd : String) (now : Q)
    (stdin : List String) : Interp :=
  let st : Interp :=
    { envs := [EnvData.new], lists := [], dicts := [], classes := [],
      instancesH := [], modulesH := [], environment := 0, globals := 0,
      locals := [], modules := [], path_stack := [], exports_stack := [],
      fs := fs, cwd := cwd, now := now, stdin := stdin, output := [] }
  init_globals st 0

/-- Outcome of one driver run (`run_interpreter_with_state` in main.rs, with
the error wrappers flattened). -/
inductive RunResult where
  | scanErrorR (es : List ScanError)
  | parseErrorR (e : PError)
  | resolveErrorR (msg : String)
  | runtimeErrorR (e : RuntimeError)
  | panickedR (msg : String)
  | fuelR
  | okR (v : Value)

/-- The tail of `run_interpreter_with_state` (main.rs) from the parsed
program onward: resolve into the interpreter's shared `locals` table, then
interpret. -/
def run_ast_with_state (fuel : Nat) (ast : AST) (st : Interp) :
    RunResult × Interp :=
  match Resolver.resolve_stmts fuel ast.body (Resolver.new st.locals) with
  | (RRes.err msg, rst) =>
    (RunResult.resolveErrorR msg, { st with locals := rst.locals })
  | (RRes.panicked m, _) => (RunResult.panickedR m, st)
  | (RRes.fuel, _) => (RunResult.fuelR, st)
  | (RRes.ok _, rst) =>
    let st := { st with locals := rst.locals }
    match interpret fuel ast st with
    | (RRes.ok v, st) => (RunResult.okR v, st)
    | (RRes.err e, st) => (RunResult.runtimeErrorR e, st)
    | (RRes.panicked m, st) => (RunResult.panickedR m, st)
    | (RRes.fuel, st) => (RunResult.fuelR, st)

/-- `run_interpreter_with_state` (main.rs): tokenize, parse, resolve into
the interpreter's shared `locals` table, interpret. -/
def run_interpreter_with_state (fuel : Nat) (source : String) (st : Interp) :
    RunResult × Interp :=
  match tokenize fuel source with
  | Option.none => (RunResult.fuelR, st)
  | Option.some (Except.error e) => (RunResult.scanErrorR e.errors, st)
  | Option.some (Except.ok tokens) =>
    match parse fuel tokens with
    | (RRes.err e, _) => (RunResult.parseErrorR e, st)
    | (RRes.panicked m, _) => (RunResult.panickedR m, st)
    | (RRes.fuel, _) => (RunResult.fuelR, st)
    | (RRes.ok ast, _) => run_ast_with_state fuel ast st

/-! ## Claim scenarios

Concrete programs, token streams and interpreter states used by the claim
theorems below.  The ASTs are written exactly as a fresh parser session
would produce them (`ExprId`s numbered in `generate_id` order from 0). -/

/-- A one-line token with no literal payload. -/
def tk (tt : TokenType) (lx : String) : Token := Token.new tt lx 1 Literal.None

/-- A fresh interpreter over an empty file system. -/
def baseState : Interp := interpreterNew [] "/" 0 []

/-- C1 main program, as parsed from
`{ var a = 1; fun g() { a; } import("m.rox"); g(); }`:
the reference to `a` inside `g` is the first expression id (0) and resolves
at depth 1 (the enclosing block) from `g`'s function scope. -/
def c1_ast : AST :=
  ⟨[Stmt.Block [
      Stmt.VarDecl (tk .Identifier "a") (some (Expr.Number "1")),
      Stmt.Function (tk .Identifier "g") []
        [Stmt.Expression (Expr.Variable 0 (tk .Identifier "a"))],
      Stmt.Expression (Expr.Call 2 (Expr.Variable 1 (tk .Identifier "import"))
        [Expr.String "m.rox"]),
      Stmt.Expression (Expr.Call 4 (Expr.Variable 3 (tk .Identifier "g")) [])]]⟩

/-- C1 file system: the imported module's only reference also gets
expression id 0 from its own fresh parser session, but resolves at depth 0. -/
def c1_fs : List (String × String) :=
  [("/proj/m.rox", "\x7b var y; y; \x7d")]

/-- C1 interpreter state (driver state after `Interpreter::new` with the
current directory pushed, as `main.rs` does for the entry script). -/
def c1_state : Interp :=
  let st := interpreterNew c1_fs "/proj" 0 []
  { st with path_stack := ["/proj"] }

/-- The token stream of the C1 module body. -/
abbrev c1_mToks : List Token :=
  [tk .LeftBrace "\x7b", tk .Var "var", tk .Identifier "y", tk .Semicolon ";",
   tk .Identifier "y", tk .Semicolon ";", tk .RightBrace "\x7d", tk .Eof ""]

/-- The AST of the C1 module body. -/
abbrev c1_mAst : AST :=
  ⟨[Stmt.Block
     [Stmt.VarDecl (tk .Identifier "y") Option.none,
      Stmt.Expression (Expr.Variable 0 (tk .Identifier "y"))]]⟩

/-- C2 statement `for (var i = q; ;) {}` whose initializer raises an
undefined-variable error (`q` is unbound, and a resolver pass accepts it as
a presumed global). -/
def c2_for : Stmt :=
  Stmt.For (some (Stmt.VarDecl (tk .Identifier "i")
    (some (Expr.Variable 0 (tk .Identifier "q"))))) none none (Stmt.Block [])

/-- C3 program `var c = 0; fun f(x) { return x; } f(c = c + 1);`: the
argument expression increments `c` as a side effect. -/
def c3_ast : AST :=
  ⟨[Stmt.VarDecl (tk .Identifier "c") (some (Expr.Number "0")),
    Stmt.Function (tk .Identifier "f") [tk .Identifier "x"]
      [Stmt.Return (tk .Return "return") (some (Expr.Variable 0 (tk .Identifier "x")))],
    Stmt.Expression (Expr.Call 2 (Expr.Variable 1 (tk .Identifier "f"))
      [Expr.Assign 3 (tk .Identifier "c")
        (Expr.Binary (Expr.Variable 4 (tk .Identifier "c")) Operator.Add
          (Expr.Number "1"))])]⟩

/-- C5: tokens of the top-level program `return;`. -/
def c5_return_toks : Tokens := ⟨[tk .Return "return", tk .Semicolon ";", tk .Eof ""]⟩

/-- C5: tokens of the top-level program `break;`. -/
def c5_break_toks : Tokens := ⟨[tk .Break "break", tk .Semicolon ";", tk .Eof ""]⟩

/-- C5: tokens of the top-level program `continue;`. -/
def c5_continue_toks : Tokens := ⟨[tk .Continue "continue", tk .Semicolon ";", tk .Eof ""]⟩

/-- C6 program `var x = 10; x -= 2;`. -/
def c6_sub_ast : AST :=
  ⟨[Stmt.VarDecl (tk .Identifier "x") (some (Expr.Number "10")),
    Stmt.Expression (Expr.AssignOp 0 (tk .Identifier "x") Operator.Sub (Expr.Number "2"))]⟩

/-- C6 program `var x = 10; x += 2;`. -/
def c6_add_ast : AST :=
  ⟨[Stmt.VarDecl (tk .Identifier "x") (some (Expr.Number "10")),
    Stmt.Expression (Expr.AssignOp 0 (tk .Identifier "x") Operator.Add (Expr.Number "2"))]⟩

/-- C7: an interpreter whose list heap holds one list `[10, 20]` (the state
after `var l = [10, 20];`). -/
def c7x_state : Interp :=
  { baseState with lists := [[Value.Number ⟨10, 1⟩, Value.Number ⟨20, 1⟩]] }

/-- C9: the scanner state reached on `"1.x2"` after consuming `1.`, at which
`Scanner::is_digit`'s outer fraction loop can no longer make progress:
`peek` is `x` (so the inner digit loop does nothing) while `peek_next` is
`2` (so the outer loop keeps iterating). -/
def c9_stuck : ScanSt := ⟨['1', '.', 'x', '2'], [], 0, 2, 1, []⟩

/-- C9: the scanner state on `"1.x2"` after consuming the initial `1`. -/
def c9_st1 : ScanSt := ⟨['1', '.', 'x', '2'], [], 0, 1, 1, []⟩

/-- C10: an interpreter whose list heap holds `[1]` and `[2, 3]` (the state
after `var a = [1]; var b = [2, 3];`). -/
def c10x_state : Interp :=
  { baseState with
      lists := [[Value.Number ⟨1, 1⟩],
                [Value.Number ⟨2, 1⟩, Value.Number ⟨3, 1⟩]] }

/-- C4 witness file system. -/
def c4_fs : List (String × String) := [("/proj/a.rox", "var v = 42;")]

/-- C4 witness state with a module value already cached for
`/proj/a.rox`. -/
def c4_hit_state : Interp :=
  let st := interpreterNew c4_fs "/proj" 0 []
  { st with path_stack := ["/proj"],
            modules := [("/proj/a.rox", Value.Module 7)] }

/-! ## Helper lemmas shared by the claim proofs -/

/-- Applying a bound `StM` computation to a state steps through the monad
instance. -/
theorem bind_app {σ ε α β : Type} (m : StM σ ε α) (f : α → StM σ ε β) (st : σ) :
    (m >>= f) st = match m st with
      | (RRes.ok a, st1) => f a st1
      | (RRes.err e, st1) => (RRes.err e, st1)
      | (RRes.panicked msg, st1) => (RRes.panicked msg, st1)
      | (RRes.fuel, st1) => (RRes.fuel, st1) := rfl

/-- Applying a pure `StM` computation to a state. -/
theorem pure_app {σ ε α : Type} (a : α) (st : σ) :
    (pure a : StM σ ε α) st = (RRes.ok a, st) := rfl

/-- `mapGet` after `mapInsert` at the same key finds the inserted value. -/
theorem mapGet_insert {κ α : Type} [DecidableEq κ] (m : List (κ × α)) (k : κ) (v : α) :
    mapGet (mapInsert m k v) k = Option.some v := by
  induction m with
  | nil => simp [mapGet, mapInsert]
  | cons h t ih =>
    by_cases hk : h.1 = k
    · simp [mapGet, mapInsert, hk]
    · simp [mapGet, mapInsert, hk, ih]

/-- Reading an appended element at the old length. -/
theorem concat_getD_len {α : Type} (xs : List α) (a d : α) :
    (xs ++ [a]).getD xs.length d = a := by
  simp [List.getD, List.getElem?_concat_length]

/-- Truncating division of a nonpositive by a nonnegative integer is
nonpositive. -/
theorem tdiv_np (a b : Int) (ha : a ≤ 0) (hb : 0 ≤ b) : Int.tdiv a b ≤ 0 := by
  cases a with
  | ofNat m =>
    have hm : m = 0 := by
      have := Int.ofNat_le.mp (by exact_mod_cast ha : (Int.ofNat m) ≤ Int.ofNat 0)
      omega
    subst hm
    cases b with
    | ofNat n => simp [Int.tdiv]
    | negSucc n => exact absurd hb (by simp)
  | negSucc m =>
    cases b with
    | ofNat n =>
      simp [Int.tdiv]
      exact Int.ediv_nonneg (by omega) (by omega)
    | negSucc n => exact absurd hb (by simp)

/-- `str::parse::<f64>` on the literal `0`. -/
theorem pf_0 : parse_f64 "0" = Option.some ⟨0, 1⟩ := rfl

/-- `str::parse::<f64>` on the literal `1`. -/
theorem pf_1 : parse_f64 "1" = Option.some ⟨1, 1⟩ := rfl

/-- Scanning the C1 module source. -/
theorem c1_tok_m : tokenize 1000 "\x7b var y; y; \x7d" =
    Option.some (Except.ok ⟨c1_mToks⟩) := rfl

/-- Parsing the C1 module tokens: one block, ids 0 for the `y` reference. -/
theorem c1_parse_m : parse 1000 ⟨c1_mToks⟩ =
    (RRes.ok c1_mAst, ⟨c1_mToks, 7, 0, 0, 1⟩) := rfl

/-- The outer fraction loop of `Scanner::is_digit` never terminates from the
stuck state on `"1.x2"`, whatever the fuel: `peek_next` stays numeric while
`peek` is not, so no iteration makes progress. -/
theorem frac_stuck : ∀ f, Scanner.fracOuterLoop f c9_stuck = Option.none := by
  intro f
  induction f with
  | zero => rfl
  | succ g ih =>
    rw [Scanner.fracOuterLoop]
    have hc : Scanner.charIsNumeric (Scanner.peek_next c9_stuck) = true := rfl
    simp only [hc, if_true]
    cases g with
    | zero => rfl
    | succ h =>
      have hd : Scanner.digitsLoop (h + 1) c9_stuck = Option.some c9_stuck := by
        rw [Scanner.digitsLoop]
        rfl
      rw [hd]
      simpa using ih

/-- The digit loop does not move past the `.` on `"1.x2"`. -/
theorem c9_dl : ∀ n, Scanner.digitsLoop (n + 1) c9_st1 = Option.some c9_st1 := by
  intro n
  rw [Scanner.digitsLoop]
  rfl

/-- `Scanner::is_digit` exhausts any fuel on `"1.x2"` after the `1`. -/
theorem c9_isdigit : ∀ n, Scanner.is_digit (n + 1) c9_st1 = Option.none := by
  intro n
  have hfrac := frac_stuck (n + 1)
  simp only [c9_stuck] at hfrac
  simp only [Scanner.is_digit]
  simp only [bind, Option.bind]
  rw [c9_dl n]
  simp [Scanner.peek, Scanner.is_at_end, Scanner.advance, c9_st1, hfrac]

/-! ## Claim theorems -/

/-- C1: the resolver invariant is refuted.  `c1_ast` is accepted by the
resolver (its run does not end in a resolve error), its reference to `a`
inside `g` is mapped to depth 1, yet executing it ends in a runtime
`UndefinedVariable "a"`: the `import` re-runs the resolver over the freshly
parsed module body in a new parser session whose expression ids restart at
0, so the module's own depth-0 reference overwrites the shared `locals`
entry for id 0, and the later depth-indexed lookup for `a` misses (the
`get_at` `None` branch is reached). -/
theorem C1_get_at_misses_after_module_import :
    (run_ast_with_state 80 c1_ast c1_state).1 =
      RunResult.runtimeErrorR (RuntimeError.UndefinedVariable "a") := by
  have ht := c1_tok_m
  have hp := c1_parse_m
  simp only [c1_mToks, c1_mAst, tk, Token.new] at ht hp
  simp +decide [c1_ast, c1_state, c1_fs, run_ast_with_state, interpreterNew, init_globals,
    fs_create_module, math_create_module, allocModule, allocEnv, Environment.define,
    Resolver.resolve_stmts, Resolver.resolve_stmt, Resolver.resolve_expr,
    Resolver.resolve_exprs, Resolver.resolve_function, Resolver.resolve_params,
    Resolver.new, Resolver.begin_scope, Resolver.end_scope, Resolver.declare,
    Resolver.define, Resolver.findDepth, Resolver.resolve_local,
    interpret, interpretLoop, execute, evaluate, evaluate_elements, execute_block,
    execStmts, defineParams, look_up_variable, Environment.get, Environment.get_at,
    Environment.assign, Environment.assign_at, EnvData.new, EnvData.with_enclosing,
    mapGet, mapInsert, mapContains, mapRemove, pf_1, parseDigits, Token.new, tk,
    bind_app, pure_app, getS, setS, modifyS, throwS, panicS, fuelS, unwrapS, liftR,
    RRes.map, Value.is_truthy,
    callNative, import_module, importCompileExec, resolve_path, pathJoin, pathParent,
    exportName, ht, hp]

/-- C2: the environment-restoration invariant is refuted.  Executing
`for (var i = q; ;) {}` from a fresh state raises `UndefinedVariable "q"`
in the initializer, and the error propagates through `?` before
`self.environment = previous_env` runs: the current environment after the
statement is the for-header scope (1), not the one before it (0). -/
theorem C2_for_initializer_error_leaks_environment :
    (execute 20 c2_for baseState).1 =
      RRes.err (RuntimeError.UndefinedVariable "q") ∧
    baseState.environment = 0 ∧
    (execute 20 c2_for baseState).2.environment = 1 := ⟨rfl, rfl, rfl⟩

/-- C3: left-to-right single evaluation of arguments is refuted.  In
`var c = 0; fun f(x) { return x; } f(c = c + 1);` the `Value::Function`
branch of `Expr::Call` re-evaluates the argument list it already evaluated,
so the side effect runs twice and `c` finishes at 2 (single evaluation
would leave 1). -/
theorem C3_call_arguments_evaluated_twice :
    (run_ast_with_state 30 c3_ast baseState).1 = RunResult.okR Value.Nil ∧
    Environment.get 20 (run_ast_with_state 30 c3_ast baseState).2
      (run_ast_with_state 30 c3_ast baseState).2.globals "c" =
      RRes.ok (Option.some (Value.Number ⟨2, 1⟩)) := by
  constructor <;>
  simp +decide [c3_ast, baseState, run_ast_with_state, interpreterNew, init_globals,
    fs_create_module, math_create_module, allocModule, allocEnv, Environment.define,
    Resolver.resolve_stmts, Resolver.resolve_stmt, Resolver.resolve_expr,
    Resolver.resolve_exprs, Resolver.resolve_function, Resolver.resolve_params,
    Resolver.new, Resolver.begin_scope, Resolver.end_scope, Resolver.declare,
    Resolver.define, Resolver.findDepth, Resolver.resolve_local,
    interpret, interpretLoop, execute, evaluate, evaluate_elements, execute_block,
    execStmts, defineParams, look_up_variable, Environment.get, Environment.get_at,
    Environment.assign, Environment.assign_at, EnvData.new, EnvData.with_enclosing,
    mapGet, mapInsert, mapContains, mapRemove, pf_0, pf_1, parseDigits, Token.new, tk,
    bind_app, pure_app, getS, setS, modifyS, throwS, panicS, fuelS, unwrapS, liftR,
    RRes.map, Value.is_truthy, add_values, qAdd, qMk, qgcd, gcdF]

/-- C4: confirmed.  Whenever `resolve_path` yields key `k`: a cache hit
returns the cached module value with the interpreter state untouched (no
file read, parse or execution), regardless of the module's initialisation
state; on a cache miss with a readable file, the fresh module value is
inserted into the cache (twice, as in the source) *before* the module body
is compiled and executed — the state passed to the compile-and-execute
closure already maps `k` to the fresh, still-uninitialised module value —
and a successful execution returns exactly that pre-published value. -/
theorem C4_module_cache_hit_and_insert_before_execute (fuel : Nat) (st : Interp)
    (p k : String) (hres : resolve_path st p = RRes.ok k) :
    (∀ v, mapGet st.modules k = Option.some v →
      import_module (fuel + 1) p st = (RRes.ok v, st)) ∧
    (mapGet st.modules k = Option.none →
     ∀ src, mapGet st.fs k = Option.some src →
     ∀ dir, pathParent k = Option.some dir →
       mapGet (mapInsert (mapInsert st.modules k (Value.Module st.modulesH.length)) k
           (Value.Module st.modulesH.length)) k
         = Option.some (Value.Module st.modulesH.length) ∧
       ((st.modulesH ++ [RoxModule.new k]).getD st.modulesH.length
           (RoxModule.new k)).is_initialized = false ∧
       (∀ r st2, importCompileExec fuel k src (Value.Module st.modulesH.length)
            { st with
              exports_stack := [] :: st.exports_stack,
              modulesH := st.modulesH ++ [RoxModule.new k],
              modules := mapInsert (mapInsert st.modules k (Value.Module st.modulesH.length)) k
                (Value.Module st.modulesH.length),
              path_stack := dir :: st.path_stack } = (r, st2) →
          ∀ u, r = RRes.ok u →
            import_module (fuel + 1) p st =
              (RRes.ok (Value.Module st.modulesH.length),
               { st2 with path_stack := st2.path_stack.tail }))) := by
  constructor
  · intro v hv
    rw [import_module]
    simp only [hres, hv]
  · intro hmiss src hsrc dir hdir
    refine ⟨mapGet_insert _ _ _, ?_, ?_⟩
    · rw [concat_getD_len]
      rfl
    · intro r st2 hexec u hru
      rw [import_module]
      simp only [hres, hmiss, hsrc, hdir, allocModule, hexec, hru]

/-- Witness for C4: on a concrete state whose cache maps `/proj/a.rox` to
module value 7, `import("a.rox")` resolves to that key and returns the
cached value with the state unchanged. -/
theorem C4_module_cache_witness :
    resolve_path c4_hit_state "a.rox" = RRes.ok "/proj/a.rox" ∧
    import_module 1 "a.rox" c4_hit_state = (RRes.ok (Value.Module 7), c4_hit_state) := by
  refine ⟨rfl, ?_⟩
  exact (C4_module_cache_hit_and_insert_before_execute 0 c4_hit_state "a.rox"
    "/proj/a.rox" rfl).1 (Value.Module 7) rfl

/-- C5: the parse-time rejection claim is refuted for `return`.  The parser
does reject `break;` and `continue;` outside a loop, but `return;` at top
level parses successfully (the source builds the "Cannot return from
top-level code." error and discards it without returning `Err`), so the
rejection is deferred to later stages. -/
theorem C5_return_outside_function_accepted_at_parse_time :
    (parse 20 c5_return_toks).1 =
      RRes.ok ⟨[Stmt.Return (tk .Return "return") Option.none]⟩ ∧
    (parse 20 c5_break_toks).1 =
      RRes.err ⟨"[line 1]: Cannot use 'break' outside of a loop.", 1⟩ ∧
    (parse 20 c5_continue_toks).1 =
      RRes.err ⟨"[line 1]: Cannot use 'continue' outside of a loop.", 1⟩ :=
  ⟨rfl, rfl, rfl⟩

/-- C6: the compound-assignment claim is refuted for `-=` (and, by the same
code path, `*=`, `/=`).  `Expr::AssignOp` only implements `Operator::Add`:
`x -= 2` raises `Generic "Invalid assign op"` and leaves `x` at 10, while
`x += 2` behaves as claimed and leaves `x` at 12. -/
theorem C6_compound_assignment_only_add_supported :
    (run_ast_with_state 20 c6_sub_ast baseState).1 =
      RunResult.runtimeErrorR (RuntimeError.Generic "Invalid assign op") ∧
    Environment.get 20 (run_ast_with_state 20 c6_sub_ast baseState).2
      (run_ast_with_state 20 c6_sub_ast baseState).2.globals "x" =
      RRes.ok (Option.some (Value.Number ⟨10, 1⟩)) ∧
    (run_ast_with_state 20 c6_add_ast baseState).1 = RunResult.okR Value.Nil ∧
    Environment.get 20 (run_ast_with_state 20 c6_add_ast baseState).2
      (run_ast_with_state 20 c6_add_ast baseState).2.globals "x" =
      RRes.ok (Option.some (Value.Number ⟨12, 1⟩)) :=
  ⟨rfl, rfl, rfl, rfl⟩

/-- C7 (amended): list index reads and writes error on non-integer indices
and on integer indices at or past the length, and succeed strictly inside
the bounds — but a negative index does *not* error: the `as usize` cast
saturates it to 0, so `l[-1]` reads (and `l[-1] = v` writes) element 0.
The original claim's "every negative integer index raises an error and
never reads or writes any element" is false. -/
theorem C7_list_index_semantics_amended (n : Nat) (st : Interp) (r : Nat)
    (xs : List Value) (q : Q) (v : Value)
    (hx : st.lists.getD r [] = xs) :
    (ratIsInt q = false →
      evalGetIndex n st (Value.List r) (Value.Number q) =
        RRes.err (RuntimeError.Generic "List index must be an integer.") ∧
      evalSetIndex n st (Value.List r) (Value.Number q) v =
        (RRes.err (RuntimeError.Generic "Index must be integer."), st)) ∧
    (ratIsInt q = true → xs.length ≤ f64AsUsize q →
      evalGetIndex n st (Value.List r) (Value.Number q) =
        RRes.err (RuntimeError.Generic "List index out of bounds.") ∧
      evalSetIndex n st (Value.List r) (Value.Number q) v =
        (RRes.err (RuntimeError.Generic "List index out of bounds."), st)) ∧
    (ratIsInt q = true → f64AsUsize q < xs.length →
      evalGetIndex n st (Value.List r) (Value.Number q) =
        RRes.ok (xs.getD (f64AsUsize q) Value.Nil) ∧
      evalSetIndex n st (Value.List r) (Value.Number q) v =
        (RRes.ok v, { st with lists := st.lists.set r (xs.set (f64AsUsize q) v) })) ∧
    (q < 0 → f64AsUsize q = 0) := by
  have hx2 : st.lists[r]?.getD [] = xs := by simpa [List.getD] using hx
  refine ⟨?_, ?_, ?_, ?_⟩
  · intro hq
    constructor
    · simp [evalGetIndex, hq]
    · simp [evalSetIndex, hq]
  · intro hq hlen
    constructor
    · simp [evalGetIndex, hq, hx2, hlen]
    · simp [evalSetIndex, hq, hx2, hlen]
  · intro hq hlen
    constructor
    · simp [evalGetIndex, hq, hx2, Nat.not_le.mpr hlen]
    · simp [evalSetIndex, hq, hx2, Nat.not_le.mpr hlen]
  · intro hq
    have hnum : q.num < 0 := by
      have h0 : q.num * ((1 : Nat) : Int) < (0 : Int) * (q.den : Int) := hq
      simpa using h0
    have ht : ratTrunc q ≤ 0 := tdiv_np _ _ (le_of_lt hnum) (by positivity)
    simp [f64AsUsize, Int.toNat_of_nonpos ht]

/-- Counterexample to C7 as stated: on the list `[10, 20]`, the negative
index `-1` does not raise an error — the read returns element 0 and the
write replaces element 0. -/
theorem C7_negative_index_reads_counterexample :
    evalGetIndex 5 c7x_state (Value.List 0) (Value.Number ⟨-1, 1⟩) =
      RRes.ok (Value.Number ⟨10, 1⟩) ∧
    evalSetIndex 5 c7x_state (Value.List 0) (Value.Number ⟨-1, 1⟩)
        (Value.Number ⟨99, 1⟩) =
      (RRes.ok (Value.Number ⟨99, 1⟩),
       { c7x_state with
           lists := [[Value.Number ⟨99, 1⟩, Value.Number ⟨20, 1⟩]] }) :=
  ⟨rfl, rfl⟩

/-- Witness for C7 (amended), at the concrete list `[10, 20]` and index
`-1`: the in-bounds case applies because the saturating cast sends `-1`
to 0. -/
theorem C7_list_index_witness :
    evalGetIndex 5 c7x_state (Value.List 0) (Value.Number ⟨-1, 1⟩) =
      RRes.ok ([Value.Number ⟨10, 1⟩, Value.Number ⟨20, 1⟩].getD
        (f64AsUsize ⟨-1, 1⟩) Value.Nil) ∧
    f64AsUsize ⟨-1, 1⟩ = 0 := by
  have h := C7_list_index_semantics_amended 5 c7x_state 0
    [Value.Number ⟨10, 1⟩, Value.Number ⟨20, 1⟩] ⟨-1, 1⟩ (Value.Number ⟨99, 1⟩) rfl
  exact ⟨(h.2.2.1 (by decide) (by decide)).1, h.2.2.2 (by decide)⟩

/-- C8: the total character-based string indexing claim is refuted.  On the
one-character string `"é"` (two UTF-8 bytes), index 0 works, but index 1
passes the byte-length bound check and then panics on
`chars().nth(i).unwrap()`; only from the byte length onward (index 2) does
the out-of-bounds error fire.  Indexing is byte-bounded, not
character-bounded, and not total. -/
theorem C8_string_index_byte_bound_panics :
    evalGetIndex 20 baseState (Value.String "é") (Value.Number ⟨1, 1⟩) =
      RRes.panicked "called Option::unwrap() on a None value" ∧
    evalGetIndex 20 baseState (Value.String "é") (Value.Number ⟨0, 1⟩) =
      RRes.ok (Value.String "é") ∧
    evalGetIndex 20 baseState (Value.String "é") (Value.Number ⟨2, 1⟩) =
      RRes.err (RuntimeError.Generic "String index out of bounds.") :=
  ⟨rfl, rfl, rfl⟩

/-- C9: the error-collecting lexer claim is refuted by non-termination.  On
the source `"1.x2"` the outer fraction loop of `Scanner::is_digit` spins
forever (`peek_next` is a digit, `peek` is not, no progress is made), so
lexing returns neither an error list nor a token stream for any fuel —
the modelled scan never finishes. -/
theorem C9_lexer_diverges_on_fraction_followed_by_letter :
    ∀ fuel, tokenize fuel "1.x2" = Option.none := by
  intro fuel
  match fuel with
  | 0 => rfl
  | 1 => rfl
  | n + 2 =>
    have h1 := c9_isdigit n
    simp only [c9_st1] at h1
    have h2 : Scanner.scan_token (n + 1)
        (⟨['1', '.', 'x', '2'], [], 0, 0, 1, []⟩ : ScanSt) = Option.none := by
      simp [Scanner.scan_token, Scanner.advance, Scanner.peek, Scanner.is_at_end,
        Scanner.charIsNumeric, Scanner.charIsAlphabetic, h1]
    have h3 : Scanner.scanLoop (n + 2) (Scanner.new "1.x2") = Option.none := by
      rw [Scanner.scanLoop]
      simp only [Scanner.new, bind, Option.bind]
      simp [Scanner.is_at_end, h2]
    simp [tokenize, Scanner.scan_tokens, h3]

/-- C10 (amended): `+` on two *distinct* list values appends the right
list's elements in place to the left list and returns the left value
itself (reference identity = heap-index identity), leaving the right list
unchanged — so the sum aliases the left operand, as the claim says.  But
when both operands are the *same* list object, the source's
`borrow_mut()`/`borrow()` pair panics (`BorrowError`) instead of appending,
so the claim's "for every two lists" reading fails on aliased operands. -/
theorem C10_list_add_aliases_in_place_amended (st : Interp) (r1 r2 : Nat)
    (hne : r1 ≠ r2) (hr1 : r1 < st.lists.length) :
    add_values st (Value.List r1) (Value.List r2) =
      (RRes.ok (Value.List r1),
       { st with lists :=
           st.lists.set r1 (st.lists.getD r1 [] ++ st.lists.getD r2 []) }) ∧
    (st.lists.set r1 (st.lists.getD r1 [] ++ st.lists.getD r2 [])).getD r1 [] =
      st.lists.getD r1 [] ++ st.lists.getD r2 [] ∧
    (st.lists.set r1 (st.lists.getD r1 [] ++ st.lists.getD r2 [])).getD r2 [] =
      st.lists.getD r2 [] := by
  refine ⟨?_, ?_, ?_⟩
  · simp [add_values, hne]
  · simp [List.getD, List.getElem?_set_self, hr1]
  · simp [List.getD, List.get?_eq_getElem?, List.getElem?_set_ne hne]

/-- Counterexample to C10's universal reading: adding a list value to
itself panics with a `RefCell` borrow error instead of extending. -/
theorem C10_aliased_add_panics_counterexample :
    add_values c10x_state (Value.List 0) (Value.List 0) =
      (RRes.panicked "already mutably borrowed: BorrowError", c10x_state) := rfl

/-- Witness for C10 (amended), on the concrete heap `[[1], [2, 3]]`:
`[1] + [2, 3]` returns list 0 whose contents become `[1, 2, 3]` while
list 1 still holds `[2, 3]`. -/
theorem C10_list_add_witness :
    add_values c10x_state (Value.List 0) (Value.List 1) =
      (RRes.ok (Value.List 0),
       { c10x_state with lists :=
           (c10x_state.lists.set 0
             (c10x_state.lists.getD 0 [] ++ c10x_state.lists.getD 1 [])) }) ∧
    (c10x_state.lists.set 0
      (c10x_state.lists.getD 0 [] ++ c10x_state.lists.getD 1 [])).getD 1 [] =
      c10x_state.lists.getD 1 [] := by
  have h := C10_list_add_aliases_in_place_amended c10x_state 0 1
    (by decide) (by decide)
  exact ⟨h.1, h.2.2⟩

end Rox
